import Mathlib

/-!
# trez: sizing, placement and codec parameters

A shallow embedding of `options.go` and `opencv.go`.

Numbers.  Go `int` values and C `int` values are integers (`Int`); the C `int`
conversions wrap to 32 bits.  A finite floating-point value is the rational
number it denotes (`ℚ`); every floating-point operation is the exact operation
followed by IEEE 754 round-to-nearest, ties-to-even, at the precision of its
type (24 bits for `float32`, 53 bits for `float64`).  On the operands the
program can produce (Go `int` and C `int` values and their quotients and
products) no exponent overflow or underflow occurs, so the exponent is left
unbounded.
-/

namespace Trez

/-! ## Floating point -/

/-- Index of the highest set bit of `n` (0 for `n < 2`), halving at most `fuel` times. -/
def log2Fuel : Nat → Nat → Nat
  | 0, _ => 0
  | fuel + 1, n => if n < 2 then 0 else log2Fuel fuel (n / 2) + 1

/-- Binary exponent of a non-zero rational: the `e` with `2^e ≤ |x| < 2^(e+1)`. -/
def binExp (x : ℚ) : Int :=
  if 2 ^ log2Fuel x.num.natAbs x.num.natAbs * x.den ≤ x.num.natAbs * 2 ^ log2Fuel x.den x.den then
    (log2Fuel x.num.natAbs x.num.natAbs : Int) - (log2Fuel x.den x.den : Int)
  else
    (log2Fuel x.num.natAbs x.num.natAbs : Int) - (log2Fuel x.den x.den : Int) - 1

/-- Nearest integer, ties to the even one. -/
def roundHalfEven (y : ℚ) : Int :=
  if y - ⌊y⌋ < 1 / 2 then ⌊y⌋
  else if 1 / 2 < y - ⌊y⌋ then ⌊y⌋ + 1
  else if ⌊y⌋ % 2 = 0 then ⌊y⌋ else ⌊y⌋ + 1

/-- Round-to-nearest-even to a significand of `p` bits: the unit in the last
place of `x` is `2^(binExp x - p + 1)`. -/
def roundFloat (p : Nat) (x : ℚ) : ℚ :=
  if x = 0 then 0
  else roundHalfEven (x / (2 : ℚ) ^ (binExp x - p + 1)) * (2 : ℚ) ^ (binExp x - p + 1)

/-- Rounding to Go `float32` (IEEE 754 binary32). -/
def float32 (x : ℚ) : ℚ := roundFloat 24 x

/-- Rounding to Go `float64` (IEEE 754 binary64). -/
def float64 (x : ℚ) : ℚ := roundFloat 53 x

/-- Truncation toward zero. -/
def truncate (x : ℚ) : Int := if 0 ≤ x then ⌊x⌋ else ⌈x⌉

/-- Go conversion `int(f)` of a floating-point value to the 64-bit `int`: the
fraction is discarded; a value outside the range of `int` gives an
implementation-dependent result, here the amd64 one (`-2^63`). -/
def goInt (x : ℚ) : Int :=
  if -2 ^ 63 ≤ truncate x ∧ truncate x < 2 ^ 63 then truncate x else -2 ^ 63

/-- Go conversion `C.int(f)` of a floating-point value to the 32-bit C `int`:
as `goInt`, with the amd64 out-of-range result `-2^31`. -/
def cIntOfFloat (x : ℚ) : Int :=
  if -2 ^ 31 ≤ truncate x ∧ truncate x < 2 ^ 31 then truncate x else -2 ^ 31

/-- Go conversion `C.int(n)` of an integer, and the result of 32-bit
arithmetic: reduction modulo `2^32` into `[-2^31, 2^31)`. -/
def cInt (n : Int) : Int := (n + 2 ^ 31) % 2 ^ 32 - 2 ^ 31

/-! ## options.go -/

/-- The type `Gravity int`. -/
abbrev Gravity := Int

def CENTER : Gravity := 0
def NORTH : Gravity := 1
def SOUTH : Gravity := 2
def WEST : Gravity := 3
def EAST : Gravity := 4
def NORTH_WEST : Gravity := 5
def NORTH_EAST : Gravity := 6
def SOUTH_WEST : Gravity := 7
def SOUTH_EAST : Gravity := 8

/-- The type `Format int`. -/
abbrev Format := Int

def JPEG : Format := 0
def WEBP : Format := 1
def PNG : Format := 2

/-- The type `Algo int`. -/
abbrev Algo := Int

def FIT : Algo := 0
def FILL : Algo := 1

/-- The struct `Options`; an omitted field has the zero value, as in a Go composite literal. -/
structure Options where
  Width : Int := 0
  Height : Int := 0
  MaxSide : Int := 0
  MaxWidth : Int := 0
  MaxHeight : Int := 0
  Algo : Algo := 0
  Background : Int × Int × Int := (0, 0, 0)
  Gravity : Gravity := 0
  Format : Format := 0
  Quality : Int := 0
  Progressive : Bool := false

/-- The method `Algo.String`. -/
def Algo.String (a : Algo) : String :=
  if a = FIT then "fit" else if a = FILL then "fill" else "invalid"

/-! ## opencv.go -/

/-- The function `calcNewSize`. -/
def calcNewSize (options : Options) : Int × Int :=
  if options.MaxSide > 0 then
    if options.Width ≤ options.MaxSide ∧ options.Height ≤ options.MaxSide then
      (options.Width, options.Height)
    else if options.Width ≥ options.Height then
      (goInt (float32 (float32 options.Width *
          float32 (float32 options.MaxSide / float32 options.Width))),
        goInt (float32 (float32 options.Height *
          float32 (float32 options.MaxSide / float32 options.Width))))
    else
      (goInt (float32 (float32 options.Width *
          float32 (float32 options.MaxSide / float32 options.Height))),
        goInt (float32 (float32 options.Height *
          float32 (float32 options.MaxSide / float32 options.Height))))
  else if options.MaxHeight > 0 then
    if options.Height ≤ options.MaxHeight then
      (options.Width, options.Height)
    else
      (goInt (float32 (float32 options.Width *
          float32 (float32 options.MaxHeight / float32 options.Height))),
        goInt (float32 (float32 options.Height *
          float32 (float32 options.MaxHeight / float32 options.Height))))
  else if options.MaxWidth > 0 then
    if options.Width ≤ options.MaxWidth then
      (options.Width, options.Height)
    else
      (goInt (float32 (float32 options.Width *
          float32 (float32 options.MaxWidth / float32 options.Width))),
        goInt (float32 (float32 options.Height *
          float32 (float32 options.MaxWidth / float32 options.Width))))
  else
    (options.Width, options.Height)

/-- The fields of the C struct `IplImage` that `resize` reads (C `int` values). -/
structure IplImage where
  width : Int
  height : Int
  depth : Int
  nChannels : Int
  deriving DecidableEq

/-- The C struct `CvSize`. -/
structure CvSize where
  width : Int
  height : Int
  deriving DecidableEq

/-- The C struct `CvRect`. -/
structure CvRect where
  x : Int
  y : Int
  width : Int
  height : Int
  deriving DecidableEq

/-- Modelled from the spec: the struct `ProcessResult`, whose declaration is
not in the two source files; the spec gives it the fields `Width`, `Height`
and `Data` (the encoded bytes). -/
structure ProcessResult where
  Width : Int
  Height : Int
  Data : List UInt8

/-- The package-level error values. -/
inductive Error
  | errNoData
  | errInvalidSourceFormat
  | errEncoding
  deriving DecidableEq, Repr

/-- The OpenCV constants `CV_IMWRITE_JPEG_QUALITY`, `CV_IMWRITE_JPEG_PROGRESSIVE`,
`CV_IMWRITE_WEBP_QUALITY` and `CV_IMWRITE_PNG_COMPRESSION`, which come from the
C headers. -/
structure ImwriteKeys where
  JPEG_QUALITY : Int
  JPEG_PROGRESSIVE : Int
  WEBP_QUALITY : Int
  PNG_COMPRESSION : Int

/-- The values the constants have in OpenCV's `imgcodecs_c.h`. -/
def opencvKeys : ImwriteKeys := ⟨1, 2, 64, 16⟩

/-- The destination image that reaches `cvEncodeImage`, described by the
library calls that produced it: nothing when no case of the `Algo` switch ran;
for `FIT` a canvas of `size` painted with the background, the source resized
into `rect`; for `FILL` the source resized to `intermediateSize` and cropped to
`rect`. -/
inductive Dst
  | none
  | fit (size : CvSize) (background : Int × Int × Int) (rect : CvRect) (src : IplImage)
  | fill (intermediateSize : CvSize) (rect : CvRect) (src : IplImage)
  deriving DecidableEq

/-- C `int` subtraction `a - b`. -/
def cSub (a b : Int) : Int := cInt (a - b)

/-- C `int` division `a / 2`, truncating toward zero. -/
def cHalf (a : Int) : Int := Int.tdiv a 2

/-- The block "Ensure options has Width and Height set" of `resize`, followed
by the call of `calcNewSize`: the options with their final `Width` and `Height`. -/
def sizedOptions (src : IplImage) (options : Options) : Options :=
  let options1 := if options.Width = 0 then { options with Width := src.width } else options
  let options2 := if options1.Height = 0 then { options1 with Height := src.height } else options1
  { options2 with Width := (calcNewSize options2).1, Height := (calcNewSize options2).2 }

/-- The block "Check quality range" of `resize`. -/
def checkQuality (quality : Int) : Int :=
  let q1 := if quality < 0 then 0 else quality
  let q2 := if q1 > 100 then 100 else q1
  if q2 = 0 then 85 else q2

/-- The scale factor of the `FIT` case: `math.Min(xf, yf)`. -/
def fitRatio (size : CvSize) (src : IplImage) : ℚ :=
  min (float64 (float64 size.width / float64 src.width))
    (float64 (float64 size.height / float64 src.height))

/-- The scale factor of the `FILL` case: `math.Max(xf, yf)`. -/
def fillRatio (size : CvSize) (src : IplImage) : ℚ :=
  max (float64 (float64 size.width / float64 src.width))
    (float64 (float64 size.height / float64 src.height))

/-- The gravity switch shared by both cases: the origin of a rectangle of
size `rect` inside a container of size `outer`; a value of `Gravity` outside
the nine constants leaves the origin of `C.CvRect{}` at zero. -/
def origin (gravity : Gravity) (outer rect : CvSize) : Int × Int :=
  if gravity = CENTER then
    (cHalf (cSub outer.width rect.width), cHalf (cSub outer.height rect.height))
  else if gravity = NORTH then
    (cHalf (cSub outer.width rect.width), 0)
  else if gravity = NORTH_WEST then
    (0, 0)
  else if gravity = NORTH_EAST then
    (cSub outer.width rect.width, 0)
  else if gravity = SOUTH then
    (cHalf (cSub outer.width rect.width), cSub outer.height rect.height)
  else if gravity = SOUTH_WEST then
    (0, cSub outer.height rect.height)
  else if gravity = SOUTH_EAST then
    (cSub outer.width rect.width, cSub outer.height rect.height)
  else if gravity = WEST then
    (0, cHalf (cSub outer.height rect.height))
  else if gravity = EAST then
    (cSub outer.width rect.width, cHalf (cSub outer.height rect.height))
  else
    (0, 0)

/-- The rectangle of the `FIT` case of `resize`. -/
def fitRect (size : CvSize) (src : IplImage) (gravity : Gravity) : CvRect :=
  let width := cIntOfFloat ⌊float64 (float64 src.width * fitRatio size src)⌋
  let height := cIntOfFloat ⌊float64 (float64 src.height * fitRatio size src)⌋
  { x := (origin gravity size ⟨width, height⟩).1
    y := (origin gravity size ⟨width, height⟩).2
    width := width
    height := height }

/-- The intermediate size of the `FILL` case of `resize`. -/
def intermediateSize (size : CvSize) (src : IplImage) : CvSize :=
  { width := cIntOfFloat ⌈float64 (float64 src.width * fillRatio size src)⌉
    height := cIntOfFloat ⌈float64 (float64 src.height * fillRatio size src)⌉ }

/-- The rectangle of the `FILL` case of `resize`, inside the intermediate image `mid`. -/
def fillRect (size : CvSize) (mid : CvSize) (gravity : Gravity) : CvRect :=
  { x := (origin gravity mid size).1
    y := (origin gravity mid size).2
    width := size.width
    height := size.height }

/-- The format switch of `resize`: the array `params` handed to the encoder. -/
def encodeParams (keys : ImwriteKeys) (format : Format) (quality : Int) (progressive : Bool) :
    List Int :=
  if format = JPEG then
    [keys.JPEG_QUALITY, cInt quality, 0, if progressive then keys.JPEG_PROGRESSIVE else 0, 0, 0]
  else if format = WEBP then
    [keys.WEBP_QUALITY, cInt (if quality = 0 then 1 else quality), 0, 0, 0, 0]
  else if format = PNG then
    [keys.PNG_COMPRESSION,
      cInt (if Int.tdiv (100 - quality) 10 > 9 then 9 else Int.tdiv (100 - quality) 10), 0, 0, 0, 0]
  else
    [0, 0, 0, 0, 0, 0]

/-- The format switch of `resize`: the extension `ext` handed to the encoder. -/
def encodeExt (format : Format) : Option String :=
  if format = JPEG then some ".jpg"
  else if format = WEBP then some ".webp"
  else if format = PNG then some ".png"
  else none

/-- The array `params` that `resize` builds for the caller's options. -/
def resizeParams (keys : ImwriteKeys) (options : Options) : List Int :=
  encodeParams keys options.Format (checkQuality options.Quality) options.Progressive

/-- The size `cvSize(C.int(options.Width), C.int(options.Height))` of `resize`. -/
def resizeSize (src : IplImage) (options : Options) : CvSize :=
  ⟨cInt (sizedOptions src options).Width, cInt (sizedOptions src options).Height⟩

/-- The destination image of `resize`, by the `Algo` switch. -/
def resizeDst (src : IplImage) (options : Options) : Dst :=
  if options.Algo = FIT then
    Dst.fit (resizeSize src options) options.Background
      (fitRect (resizeSize src options) src options.Gravity) src
  else if options.Algo = FILL then
    Dst.fill (intermediateSize (resizeSize src options) src)
      (fillRect (resizeSize src options) (intermediateSize (resizeSize src options) src)
        options.Gravity) src
  else
    Dst.none

/-- The function `resize`.  The source is `none` for a nil pointer;
`cvEncodeImage` is the library's encoder, which gives `none` for a nil result. -/
def resize (keys : ImwriteKeys)
    (cvEncodeImage : Option String → Dst → List Int → Option (List UInt8))
    (src : Option IplImage) (options : Options) : Except Error ProcessResult :=
  match src with
  | none => Except.error Error.errInvalidSourceFormat
  | some src =>
    if src.width = 0 ∨ src.height = 0 then Except.error Error.errInvalidSourceFormat
    else
      match cvEncodeImage (encodeExt options.Format) (resizeDst src options)
          (resizeParams keys options) with
      | none => Except.error Error.errEncoding
      | some data =>
        Except.ok
          { Width := (sizedOptions src options).Width
            Height := (sizedOptions src options).Height
            Data := data }

/-- The block "Ensure options has Width and Height set" of `resize` alone: the
options as `calcNewSize` receives them. -/
def defaultSize (src : IplImage) (options : Options) : Options :=
  let options1 := if options.Width = 0 then { options with Width := src.width } else options
  if options1.Height = 0 then { options1 with Height := src.height } else options1

/-- The floating-point divisions `calcNewSize` performs, each as
(dividend, divisor): one in a branch that scales, none in a branch that returns
the size unchanged. -/
def calcNewSizeDivisions (options : Options) : List (ℚ × ℚ) :=
  if options.MaxSide > 0 then
    if options.Width ≤ options.MaxSide ∧ options.Height ≤ options.MaxSide then []
    else if options.Width ≥ options.Height then
      [(float32 options.MaxSide, float32 options.Width)]
    else
      [(float32 options.MaxSide, float32 options.Height)]
  else if options.MaxHeight > 0 then
    if options.Height ≤ options.MaxHeight then []
    else [(float32 options.MaxHeight, float32 options.Height)]
  else if options.MaxWidth > 0 then
    if options.Width ≤ options.MaxWidth then []
    else [(float32 options.MaxWidth, float32 options.Width)]
  else
    []

/-- The floating-point divisions `resize` performs, each as (dividend, divisor),
in order: none when it returns at the source validation, otherwise those of
`calcNewSize` followed by `xf` and `yf`. -/
def resizeDivisions (src : Option IplImage) (options : Options) : List (ℚ × ℚ) :=
  match src with
  | none => []
  | some src =>
    if src.width = 0 ∨ src.height = 0 then []
    else
      calcNewSizeDivisions (defaultSize src options) ++
        [(float64 (resizeSize src options).width, float64 src.width),
          (float64 (resizeSize src options).height, float64 src.height)]

/-- The functions of the C library and of cgo that `Resize` and `resize` call. -/
inductive Call
  | cvUseOptimized
  | cvCreateMat
  | set_data_mat
  | cvDecodeImage
  | cvReleaseMat
  | cvSize
  | cvCreateImage
  | cvScalar
  | cvSet
  | cvSetImageROI
  | cvResize
  | cvResetImageROI
  | cvClone
  | CString
  | cvEncodeImage
  | free
  | ptr_from_mat
  | GoBytes
  | cvReleaseImage
  deriving DecidableEq

/-- The calls of the `Algo` switch of `resize`, in order. -/
def algoCalls (algo : Algo) : List Call :=
  if algo = FIT then
    [Call.cvCreateImage, Call.cvScalar, Call.cvSet, Call.cvSetImageROI, Call.cvResize,
      Call.cvResetImageROI]
  else if algo = FILL then
    [Call.cvSize, Call.cvCreateImage, Call.cvResize, Call.cvSetImageROI, Call.cvClone,
      Call.cvResetImageROI]
  else
    []

/-- The deferred `cvReleaseImage` calls of `resize`, run at its return, the last
deferred first: `dst` and `src` for `FIT`; `dst`, `mid` and `src` for `FILL`;
`src` alone otherwise. -/
def deferredCalls (algo : Algo) : List Call :=
  if algo = FIT then [Call.cvReleaseImage, Call.cvReleaseImage]
  else if algo = FILL then [Call.cvReleaseImage, Call.cvReleaseImage, Call.cvReleaseImage]
  else [Call.cvReleaseImage]

/-- The calls `resize` makes, in order: none when it returns at the source
validation. -/
def resizeCalls (keys : ImwriteKeys)
    (cvEncodeImage : Option String → Dst → List Int → Option (List UInt8))
    (src : Option IplImage) (options : Options) : List Call :=
  match src with
  | none => []
  | some src =>
    if src.width = 0 ∨ src.height = 0 then []
    else
      [Call.cvSize] ++ algoCalls options.Algo ++
        (if (encodeExt options.Format).isSome then [Call.CString] else []) ++
        [Call.cvEncodeImage, Call.free] ++
        (match cvEncodeImage (encodeExt options.Format) (resizeDst src options)
            (resizeParams keys options) with
          | none => []
          | some _ => [Call.ptr_from_mat, Call.GoBytes, Call.cvReleaseMat]) ++
        deferredCalls options.Algo

/-- The function `Resize`: its result, and the calls made on the way, in order.
`cvDecodeImage` is the library's decoder, which gives `none` for a nil image. -/
def Resize (keys : ImwriteKeys) (cvDecodeImage : List UInt8 → Option IplImage)
    (cvEncodeImage : Option String → Dst → List Int → Option (List UInt8))
    (data : List UInt8) (options : Options) : Except Error ProcessResult × List Call :=
  if data.length = 0 then (Except.error Error.errNoData, [])
  else
    (resize keys cvEncodeImage (cvDecodeImage data) options,
      [Call.cvUseOptimized, Call.cvCreateMat, Call.set_data_mat, Call.cvDecodeImage,
          Call.cvReleaseMat] ++
        resizeCalls keys cvEncodeImage (cvDecodeImage data) options)

/-! ## The specification's own formulas -/

/-- The quality the spec takes for the codec mapping: the caller's value
clamped to `[0, 100]`, a clamped value of 0 replaced by 85. -/
def specQuality (quality : Int) : Int :=
  if max 0 (min 100 quality) = 0 then 85 else max 0 (min 100 quality)

/-- The PNG level of the spec: `clamp(floor((100 - Q) / 10), 0, 9)`. -/
def specPngLevel (q : Int) : Int := max 0 (min 9 ((100 - q) / 10))

/-- The encoder's reading of the parameter array, as the spec describes it:
an ordered list of (key, value) pairs at the indices 0-1, 2-3, 4-5, ended by
the first zero key. -/
def readPairs : List Int → List (Int × Int)
  | key :: value :: rest => if key = 0 then [] else (key, value) :: readPairs rest
  | _ => []

/-- One dimension `a` scaled by `ratio = m / d` as the spec words it: exact
arithmetic, then truncation. -/
def specScale (a m d : Int) : Int := truncate ((a : ℚ) * ((m : ℚ) / (d : ℚ)))

/-- One dimension `a` scaled by `ratio = m / d` with every operand, the
quotient and the product rounded to `float32`, then converted with `int()`. -/
def scale32 (a m d : Int) : Int :=
  goInt (float32 (float32 a * float32 (float32 m / float32 d)))

/-- The gravity origin table of the spec, in its order of rows, for a container
`(W, H)` and a rectangle `(w, h)`, on the integers, the division truncating
toward zero; the table has no row for another value. -/
def specOrigin (gravity : Gravity) (W H w h : Int) : Option (Int × Int) :=
  if gravity = CENTER then some (Int.tdiv (W - w) 2, Int.tdiv (H - h) 2)
  else if gravity = NORTH then some (Int.tdiv (W - w) 2, 0)
  else if gravity = SOUTH then some (Int.tdiv (W - w) 2, H - h)
  else if gravity = WEST then some (0, Int.tdiv (H - h) 2)
  else if gravity = EAST then some (W - w, Int.tdiv (H - h) 2)
  else if gravity = NORTH_WEST then some (0, 0)
  else if gravity = NORTH_EAST then some (W - w, 0)
  else if gravity = SOUTH_WEST then some (0, H - h)
  else if gravity = SOUTH_EAST then some (W - w, H - h)
  else none

/-- One `FIT` dimension of the spec in exact arithmetic:
`floor(s * min(W/sw, H/sh))`. -/
def specFit (s sw sh W H : Int) : Int :=
  ⌊(s : ℚ) * min ((W : ℚ) / (sw : ℚ)) ((H : ℚ) / (sh : ℚ))⌋

/-- One `FILL` intermediate dimension of the spec in exact arithmetic:
`ceil(s * max(W/sw, H/sh))`. -/
def specFill (s sw sh W H : Int) : Int :=
  ⌈(s : ℚ) * max ((W : ℚ) / (sw : ℚ)) ((H : ℚ) / (sh : ℚ))⌉

/-! ## Lemmas -/

theorem cInt_eq_self {n : Int} (h1 : -2 ^ 31 ≤ n) (h2 : n < 2 ^ 31) : cInt n = n := by
  unfold cInt
  norm_num at h1 h2 ⊢
  omega

theorem checkQuality_range (q : Int) : 1 ≤ checkQuality q ∧ checkQuality q ≤ 100 := by
  unfold checkQuality
  dsimp only
  split_ifs <;> omega

theorem checkQuality_eq_specQuality (q : Int) : checkQuality q = specQuality q := by
  unfold checkQuality specQuality
  dsimp only
  split_ifs <;> omega

theorem cInt_checkQuality (q : Int) : cInt (checkQuality q) = checkQuality q := by
  have h := checkQuality_range q
  apply cInt_eq_self <;> norm_num <;> omega

/-- The PNG level computed from a checked quality: no wrap and no clamp is left. -/
theorem pngLevel_checked (q : Int) :
    cInt (if Int.tdiv (100 - checkQuality q) 10 > 9 then 9 else Int.tdiv (100 - checkQuality q) 10)
      = (100 - checkQuality q) / 10 := by
  have h := checkQuality_range q
  have h1 : Int.tdiv (100 - checkQuality q) 10 = (100 - checkQuality q) / 10 :=
    Int.tdiv_eq_ediv (by omega) (by norm_num)
  rw [h1]
  have h2 : ¬ ((100 - checkQuality q) / 10 > 9) := by omega
  rw [if_neg h2]
  apply cInt_eq_self <;> norm_num <;> omega

theorem resizeParams_png (keys : ImwriteKeys) (o : Options) (h : o.Format = PNG) :
    resizeParams keys o = [keys.PNG_COMPRESSION, (100 - checkQuality o.Quality) / 10, 0, 0, 0, 0] := by
  unfold resizeParams encodeParams
  rw [h, pngLevel_checked]
  simp [PNG, JPEG, WEBP]

theorem resizeParams_webp (keys : ImwriteKeys) (o : Options) (h : o.Format = WEBP) :
    resizeParams keys o = [keys.WEBP_QUALITY, checkQuality o.Quality, 0, 0, 0, 0] := by
  have hq := checkQuality_range o.Quality
  unfold resizeParams encodeParams
  rw [h, if_neg (by omega : ¬ checkQuality o.Quality = 0), cInt_checkQuality]
  simp [JPEG, WEBP]

theorem resizeParams_jpeg (keys : ImwriteKeys) (o : Options) (h : o.Format = JPEG) :
    resizeParams keys o = [keys.JPEG_QUALITY, checkQuality o.Quality, 0,
      if o.Progressive then keys.JPEG_PROGRESSIVE else 0, 0, 0] := by
  unfold resizeParams encodeParams
  rw [h, cInt_checkQuality]
  simp

theorem checkQuality_of_gt {q : Int} (h : 100 < q) : checkQuality q = 100 := by
  unfold checkQuality
  dsimp only
  split_ifs <;> omega

theorem checkQuality_of_nonpos {q : Int} (h : q ≤ 0) : checkQuality q = 85 := by
  unfold checkQuality
  dsimp only
  split_ifs <;> omega

theorem checkQuality_of_pos {q : Int} (h1 : 1 ≤ q) (h2 : q ≤ 100) : checkQuality q = q := by
  unfold checkQuality
  dsimp only
  split_ifs <;> omega

/-! ### Rounding -/

theorem pow_log2Fuel_le (fuel : Nat) : ∀ n : Nat, 1 ≤ n → 2 ^ log2Fuel fuel n ≤ n := by
  induction fuel with
  | zero => intro n hn; simpa [log2Fuel] using hn
  | succ k ih =>
    intro n hn
    unfold log2Fuel
    split_ifs with h
    · simpa using hn
    · have h2 := ih (n / 2) (by omega)
      rw [pow_succ]
      omega

theorem lt_pow_log2Fuel (fuel : Nat) : ∀ n : Nat, n ≤ fuel → n < 2 ^ (log2Fuel fuel n + 1) := by
  induction fuel with
  | zero => intro n hn; simp [log2Fuel]; omega
  | succ k ih =>
    intro n hn
    unfold log2Fuel
    split_ifs with h
    · simpa using h
    · have h2 := ih (n / 2) (by omega)
      rw [pow_succ]
      omega

theorem abs_eq_natAbs_div_den (x : ℚ) : |x| = (x.num.natAbs : ℚ) / (x.den : ℚ) := by
  conv_lhs => rw [← Rat.num_div_den x]
  rw [abs_div, Nat.abs_cast]
  rw [Nat.cast_natAbs, Int.cast_abs]

theorem zpow_binExp_le {x : ℚ} (hx : x ≠ 0) : (2 : ℚ) ^ binExp x ≤ |x| := by
  have ha : 1 ≤ x.num.natAbs := Nat.one_le_iff_ne_zero.mpr (by simpa using hx)
  have hb : 1 ≤ x.den := x.den_pos
  have hbq : (0 : ℚ) < x.den := by exact_mod_cast x.den_pos
  have h1 := pow_log2Fuel_le x.num.natAbs x.num.natAbs ha
  have h2 := lt_pow_log2Fuel x.den x.den le_rfl
  rw [abs_eq_natAbs_div_den]
  unfold binExp
  split_ifs with h
  · rw [zpow_sub₀ (by norm_num), zpow_natCast, zpow_natCast, div_le_div_iff₀ (by positivity) hbq]
    exact_mod_cast h
  · rw [zpow_sub₀ (by norm_num), zpow_sub₀ (by norm_num), zpow_natCast, zpow_natCast, zpow_one,
      div_div, div_le_div_iff₀ (by positivity) hbq]
    have : 2 ^ log2Fuel x.num.natAbs x.num.natAbs * x.den
        ≤ x.num.natAbs * (2 ^ log2Fuel x.den x.den * 2) := by
      rw [pow_succ] at h2
      calc 2 ^ log2Fuel x.num.natAbs x.num.natAbs * x.den
          ≤ x.num.natAbs * x.den := Nat.mul_le_mul_right _ h1
        _ ≤ x.num.natAbs * (2 ^ log2Fuel x.den x.den * 2) := Nat.mul_le_mul_left _ (le_of_lt h2)
    exact_mod_cast this

theorem lt_zpow_binExp {x : ℚ} (hx : x ≠ 0) : |x| < (2 : ℚ) ^ (binExp x + 1) := by
  have ha : 1 ≤ x.num.natAbs := Nat.one_le_iff_ne_zero.mpr (by simpa using hx)
  have hb : 1 ≤ x.den := x.den_pos
  have hbq : (0 : ℚ) < x.den := by exact_mod_cast x.den_pos
  have h1 := lt_pow_log2Fuel x.num.natAbs x.num.natAbs le_rfl
  have h2 := pow_log2Fuel_le x.den x.den hb
  rw [abs_eq_natAbs_div_den]
  unfold binExp
  split_ifs with h
  · rw [show ((log2Fuel x.num.natAbs x.num.natAbs : Int) - (log2Fuel x.den x.den : Int) + 1)
        = ((log2Fuel x.num.natAbs x.num.natAbs + 1 : Nat) : Int) - (log2Fuel x.den x.den : Int) by
          push_cast; ring,
      zpow_sub₀ (by norm_num), zpow_natCast, zpow_natCast, div_lt_div_iff₀ hbq (by positivity)]
    have : x.num.natAbs * 2 ^ log2Fuel x.den x.den
        < 2 ^ (log2Fuel x.num.natAbs x.num.natAbs + 1) * x.den :=
      calc x.num.natAbs * 2 ^ log2Fuel x.den x.den
          ≤ x.num.natAbs * x.den := Nat.mul_le_mul_left _ h2
        _ < 2 ^ (log2Fuel x.num.natAbs x.num.natAbs + 1) * x.den :=
          Nat.mul_lt_mul_of_pos_right h1 hb
    exact_mod_cast this
  · rw [show ((log2Fuel x.num.natAbs x.num.natAbs : Int) - (log2Fuel x.den x.den : Int) - 1 + 1)
        = (log2Fuel x.num.natAbs x.num.natAbs : Int) - (log2Fuel x.den x.den : Int) by ring,
      zpow_sub₀ (by norm_num), zpow_natCast, zpow_natCast, div_lt_div_iff₀ hbq (by positivity)]
    have := not_le.mp h
    exact_mod_cast this


theorem roundHalfEven_error (y : ℚ) : |(roundHalfEven y : ℚ) - y| ≤ 1 / 2 := by
  have h1 := Int.floor_le y
  have h2 := Int.lt_floor_add_one y
  unfold roundHalfEven
  rw [abs_le]
  split_ifs with a b c
  · constructor <;> linarith
  · push_cast; constructor <;> linarith
  · have b' := not_lt.mp b
    constructor <;> linarith
  · have a' := not_lt.mp a
    push_cast; constructor <;> linarith

theorem roundHalfEven_intCast (z : Int) : roundHalfEven (z : ℚ) = z := by
  unfold roundHalfEven
  simp

/-- Rounding error: at most `2^-p` relative to `x`. -/
theorem roundFloat_error (p : Nat) (x : ℚ) : |roundFloat p x - x| ≤ |x| / 2 ^ p := by
  unfold roundFloat
  split_ifs with h0
  · simp [h0]
  · have hu : (0 : ℚ) < (2 : ℚ) ^ (binExp x - p + 1) := zpow_pos (by norm_num) _
    have he := roundHalfEven_error (x / (2 : ℚ) ^ (binExp x - p + 1))
    have hx := zpow_binExp_le h0
    have key : (roundHalfEven (x / (2 : ℚ) ^ (binExp x - p + 1)) : ℚ) * (2 : ℚ) ^ (binExp x - p + 1) - x
        = ((roundHalfEven (x / (2 : ℚ) ^ (binExp x - p + 1)) : ℚ) - x / (2 : ℚ) ^ (binExp x - p + 1))
          * (2 : ℚ) ^ (binExp x - p + 1) := by
      field_simp
    rw [key, abs_mul, abs_of_pos hu]
    have hsplit : (2 : ℚ) ^ (binExp x - p + 1) = (2 : ℚ) ^ binExp x / 2 ^ p * 2 := by
      rw [show binExp x - (p : Int) + 1 = binExp x - (p : Int) + 1 by rfl,
        zpow_add₀ (by norm_num), zpow_sub₀ (by norm_num), zpow_natCast, zpow_one]
    have hp : (0 : ℚ) < 2 ^ p := by positivity
    calc |(roundHalfEven (x / (2 : ℚ) ^ (binExp x - p + 1)) : ℚ) - x / (2 : ℚ) ^ (binExp x - p + 1)|
          * (2 : ℚ) ^ (binExp x - p + 1)
        ≤ 1 / 2 * (2 : ℚ) ^ (binExp x - p + 1) := mul_le_mul_of_nonneg_right he (le_of_lt hu)
      _ = (2 : ℚ) ^ binExp x / 2 ^ p := by rw [hsplit]; ring
      _ ≤ |x| / 2 ^ p := div_le_div_of_nonneg_right hx (le_of_lt hp)

/-- The rounded value is an integer significand of at most `p` bits (or `2^p`,
the next power of two) times the unit in the last place. -/
theorem roundFloat_significand (p : Nat) {x : ℚ} (hx : x ≠ 0) :
    roundFloat p x
        = roundHalfEven (x / (2 : ℚ) ^ (binExp x - p + 1)) * (2 : ℚ) ^ (binExp x - p + 1) ∧
      |roundHalfEven (x / (2 : ℚ) ^ (binExp x - p + 1))| ≤ 2 ^ p := by
  constructor
  · unfold roundFloat
    rw [if_neg hx]
  · have hu : (0 : ℚ) < (2 : ℚ) ^ (binExp x - p + 1) := zpow_pos (by norm_num) _
    have h1 := lt_zpow_binExp hx
    have h2 : |x / (2 : ℚ) ^ (binExp x - p + 1)| < 2 ^ p := by
      rw [abs_div, abs_of_pos hu, div_lt_iff₀ hu, ← zpow_natCast, ← zpow_add₀ (by norm_num)]
      rw [show (p : Int) + (binExp x - p + 1) = binExp x + 1 by ring]
      exact h1
    have h3 := roundHalfEven_error (x / (2 : ℚ) ^ (binExp x - p + 1))
    have h4 := abs_sub_abs_le_abs_sub
      ((roundHalfEven (x / (2 : ℚ) ^ (binExp x - p + 1)) : Int) : ℚ)
      (x / (2 : ℚ) ^ (binExp x - p + 1))
    have h5 : |((roundHalfEven (x / (2 : ℚ) ^ (binExp x - p + 1)) : Int) : ℚ)| < 2 ^ p + 1 := by
      linarith
    have h6 : |roundHalfEven (x / (2 : ℚ) ^ (binExp x - p + 1))| < 2 ^ p + 1 := by
      exact_mod_cast h5
    omega

theorem roundFloat_le {p : Nat} {x : ℚ} (hx : 0 ≤ x) : roundFloat p x ≤ x * (1 + 1 / 2 ^ p) := by
  have h := roundFloat_error p x
  rw [abs_of_nonneg hx, abs_le] at h
  have : x * (1 + 1 / 2 ^ p) = x + x / 2 ^ p := by ring
  linarith [h.2]

theorem le_roundFloat {p : Nat} {x : ℚ} (hx : 0 ≤ x) : x * (1 - 1 / 2 ^ p) ≤ roundFloat p x := by
  have h := roundFloat_error p x
  rw [abs_of_nonneg hx, abs_le] at h
  have : x * (1 - 1 / 2 ^ p) = x - x / 2 ^ p := by ring
  linarith [h.1]

theorem roundFloat_nonneg {p : Nat} {x : ℚ} (hx : 0 ≤ x) : 0 ≤ roundFloat p x := by
  have h := le_roundFloat (p := p) hx
  have h1 : (1 : ℚ) / 2 ^ p ≤ 1 := by
    rw [div_le_one (by positivity)]
    exact one_le_pow₀ (by norm_num)
  have : 0 ≤ x * (1 - 1 / 2 ^ p) := mul_nonneg hx (by linarith)
  linarith

/-- An integer below `2^p` in absolute value is a `p`-bit floating-point number. -/
theorem roundFloat_intCast {p : Nat} {n : Int} (h : |n| < 2 ^ p) : roundFloat p (n : ℚ) = n := by
  unfold roundFloat
  split_ifs with h0
  · exact h0.symm
  · have h1 := zpow_binExp_le h0
    have h2 : |(n : ℚ)| < 2 ^ p := by exact_mod_cast h
    have h3 : (2 : ℚ) ^ binExp (n : ℚ) < (2 : ℚ) ^ (p : Int) := by
      rw [zpow_natCast]; exact lt_of_le_of_lt h1 h2
    have h4 : binExp (n : ℚ) < p := (zpow_lt_zpow_iff_right₀ (by norm_num)).mp h3
    obtain ⟨k, hk⟩ : ∃ k : Nat, binExp (n : ℚ) - p + 1 = -(k : Int) :=
      ⟨(p - 1 - binExp (n : ℚ)).toNat, by omega⟩
    rw [hk, zpow_neg, zpow_natCast, div_inv_eq_mul]
    have : ((n : ℚ) * 2 ^ k) = ((n * 2 ^ k : Int) : ℚ) := by push_cast; ring
    rw [this, roundHalfEven_intCast]
    push_cast
    field_simp


theorem float64_intCast {n : Int} (h1 : -2 ^ 31 ≤ n) (h2 : n < 2 ^ 31) : float64 (n : ℚ) = n := by
  apply roundFloat_intCast
  rw [abs_lt]
  constructor <;> norm_num at h1 h2 ⊢ <;> omega

theorem truncate_intCast (z : Int) : truncate (z : ℚ) = z := by
  unfold truncate
  split_ifs <;> simp

theorem cIntOfFloat_intCast {z : Int} (h1 : -2 ^ 31 ≤ z) (h2 : z < 2 ^ 31) :
    cIntOfFloat (z : ℚ) = z := by
  unfold cIntOfFloat
  rw [truncate_intCast, if_pos ⟨h1, h2⟩]

theorem scaled_upper {u sw W r q v : ℚ} (hu : 0 ≤ u) (hsw : 0 < sw)
    (hq : q ≤ W / sw * (1 + u)) (hr : r ≤ q) (hv : v ≤ sw * r * (1 + u)) :
    v ≤ W * ((1 + u) * (1 + u)) := by
  have h1 : sw * r ≤ sw * (W / sw * (1 + u)) :=
    mul_le_mul_of_nonneg_left (le_trans hr hq) (le_of_lt hsw)
  have h2 : sw * (W / sw * (1 + u)) = W * (1 + u) := by
    field_simp
  have h3 : sw * r * (1 + u) ≤ W * (1 + u) * (1 + u) :=
    mul_le_mul_of_nonneg_right (h2 ▸ h1) (by linarith)
  calc v ≤ sw * r * (1 + u) := hv
    _ ≤ W * (1 + u) * (1 + u) := h3
    _ = W * ((1 + u) * (1 + u)) := by ring

theorem scaled_lower {u sw W r q v : ℚ} (hu : u ≤ 1) (hsw : 0 < sw)
    (hq : W / sw * (1 - u) ≤ q) (hr : q ≤ r) (hv : sw * r * (1 - u) ≤ v) :
    W * ((1 - u) * (1 - u)) ≤ v := by
  have h1 : sw * (W / sw * (1 - u)) ≤ sw * r :=
    mul_le_mul_of_nonneg_left (le_trans hq hr) (le_of_lt hsw)
  have h2 : sw * (W / sw * (1 - u)) = W * (1 - u) := by
    field_simp
  have h3 : W * (1 - u) * (1 - u) ≤ sw * r * (1 - u) :=
    mul_le_mul_of_nonneg_right (h2 ▸ h1) (by linarith)
  calc W * ((1 - u) * (1 - u)) = W * (1 - u) * (1 - u) := by ring
    _ ≤ sw * r * (1 - u) := h3
    _ ≤ v := hv

/-- Scaling a source dimension `sw` by a factor that is at most the rounded
quotient `W / sw` and rounding gives a value whose floor is in `0..W`. -/
theorem floor_scaled_le {sw W : Int} {r : ℚ} (hsw : 0 < sw) (hsw2 : sw < 2 ^ 31)
    (hW : 0 ≤ W) (hW2 : W < 2 ^ 31) (hr0 : 0 ≤ r)
    (hr : r ≤ float64 (float64 W / float64 sw)) :
    0 ≤ ⌊float64 (float64 sw * r)⌋ ∧ ⌊float64 (float64 sw * r)⌋ ≤ W := by
  rw [float64_intCast (by omega) hW2, float64_intCast (by omega) hsw2] at hr
  rw [float64_intCast (by omega) hsw2]
  have hswq : (0 : ℚ) < (sw : ℚ) := by exact_mod_cast hsw
  have hWq : (0 : ℚ) ≤ (W : ℚ) := by exact_mod_cast hW
  have hWq2 : (W : ℚ) < 2 ^ 31 := by exact_mod_cast hW2
  have hprod : (0 : ℚ) ≤ (sw : ℚ) * r := mul_nonneg (le_of_lt hswq) hr0
  have hquot : (0 : ℚ) ≤ (W : ℚ) / (sw : ℚ) := div_nonneg hWq (le_of_lt hswq)
  have e4 := scaled_upper (by norm_num) hswq (roundFloat_le hquot) hr (roundFloat_le hprod)
  have e5 : (1 + 1 / 2 ^ 53 : ℚ) * (1 + 1 / 2 ^ 53) ≤ 1 + 1 / 2 ^ 31 := by norm_num
  have e6 : (W : ℚ) * ((1 + 1 / 2 ^ 53) * (1 + 1 / 2 ^ 53)) ≤ (W : ℚ) * (1 + 1 / 2 ^ 31) :=
    mul_le_mul_of_nonneg_left e5 hWq
  have e7 : (W : ℚ) * (1 / 2 ^ 31) < 1 := by
    have : (W : ℚ) * (1 / 2 ^ 31) < 2 ^ 31 * (1 / 2 ^ 31) :=
      mul_lt_mul_of_pos_right hWq2 (by norm_num)
    linarith [show (2 ^ 31 : ℚ) * (1 / 2 ^ 31) = 1 by norm_num]
  constructor
  · exact Int.floor_nonneg.mpr (roundFloat_nonneg hprod)
  · have : ⌊float64 ((sw : ℚ) * r)⌋ < W + 1 := by
      rw [Int.floor_lt]
      push_cast
      unfold float64
      linarith
    omega

/-- Scaling a source dimension `sw` by a factor that is at least the rounded
quotient `W / sw` and rounding gives a value whose ceiling is at least `W`. -/
theorem le_ceil_scaled {sw W : Int} {r : ℚ} (hsw : 0 < sw) (hsw2 : sw < 2 ^ 31)
    (hW : 0 ≤ W) (hW2 : W < 2 ^ 31)
    (hr : float64 (float64 W / float64 sw) ≤ r) :
    W ≤ ⌈float64 (float64 sw * r)⌉ := by
  rw [float64_intCast (by omega) hW2, float64_intCast (by omega) hsw2] at hr
  rw [float64_intCast (by omega) hsw2]
  have hswq : (0 : ℚ) < (sw : ℚ) := by exact_mod_cast hsw
  have hWq : (0 : ℚ) ≤ (W : ℚ) := by exact_mod_cast hW
  have hWq2 : (W : ℚ) < 2 ^ 31 := by exact_mod_cast hW2
  have hquot : (0 : ℚ) ≤ (W : ℚ) / (sw : ℚ) := div_nonneg hWq (le_of_lt hswq)
  have hr0 : 0 ≤ r := le_trans (roundFloat_nonneg hquot) hr
  have hprod : (0 : ℚ) ≤ (sw : ℚ) * r := mul_nonneg (le_of_lt hswq) hr0
  have e4 := scaled_lower (by norm_num) hswq (le_roundFloat hquot) hr (le_roundFloat hprod)
  have e5 : (1 - 1 / 2 ^ 31 : ℚ) ≤ (1 - 1 / 2 ^ 53) * (1 - 1 / 2 ^ 53) := by norm_num
  have e6 : (W : ℚ) * (1 - 1 / 2 ^ 31) ≤ (W : ℚ) * ((1 - 1 / 2 ^ 53) * (1 - 1 / 2 ^ 53)) :=
    mul_le_mul_of_nonneg_left e5 hWq
  have e7 : (W : ℚ) * (1 / 2 ^ 31) < 1 := by
    have : (W : ℚ) * (1 / 2 ^ 31) < 2 ^ 31 * (1 / 2 ^ 31) :=
      mul_lt_mul_of_pos_right hWq2 (by norm_num)
    linarith [show (2 ^ 31 : ℚ) * (1 / 2 ^ 31) = 1 by norm_num]
  have : W - 1 < ⌈float64 ((sw : ℚ) * r)⌉ := by
    rw [Int.lt_ceil]
    push_cast
    unfold float64
    linarith
  omega


theorem origin_fits (gravity : Gravity) {W H w h : Int}
    (hw0 : 0 ≤ w) (hw : w ≤ W) (hW : W < 2 ^ 31) (hh0 : 0 ≤ h) (hh : h ≤ H) (hH : H < 2 ^ 31) :
    0 ≤ (origin gravity ⟨W, H⟩ ⟨w, h⟩).1 ∧ 0 ≤ (origin gravity ⟨W, H⟩ ⟨w, h⟩).2 ∧
    (origin gravity ⟨W, H⟩ ⟨w, h⟩).1 + w ≤ W ∧ (origin gravity ⟨W, H⟩ ⟨w, h⟩).2 + h ≤ H := by
  have hx : cSub W w = W - w := by
    unfold cSub
    apply cInt_eq_self <;> norm_num at hW ⊢ <;> omega
  have hy : cSub H h = H - h := by
    unfold cSub
    apply cInt_eq_self <;> norm_num at hH ⊢ <;> omega
  have hx2 : cHalf (W - w) = (W - w) / 2 := Int.tdiv_eq_ediv (by omega) (by norm_num)
  have hy2 : cHalf (H - h) = (H - h) / 2 := Int.tdiv_eq_ediv (by omega) (by norm_num)
  unfold origin
  simp only [hx, hy, hx2, hy2]
  split_ifs <;> simp only <;> omega

theorem float32_intCast {n : Int} (h : |n| < 2 ^ 24) : float32 (n : ℚ) = n :=
  roundFloat_intCast h

theorem truncate_close {x y : ℚ} (h : |x - y| < 1) : |truncate x - truncate y| ≤ 1 := by
  rw [abs_lt] at h
  have fx1 := Int.floor_le x
  have fx2 := Int.lt_floor_add_one x
  have fy1 := Int.floor_le y
  have fy2 := Int.lt_floor_add_one y
  have cx1 := Int.le_ceil x
  have cx2 := Int.ceil_lt_add_one x
  have cy1 := Int.le_ceil y
  have cy2 := Int.ceil_lt_add_one y
  have key : ((truncate x : Int) : ℚ) - truncate y < 2 ∧ -2 < ((truncate x : Int) : ℚ) - truncate y := by
    unfold truncate
    split_ifs with hx hy hy
    · constructor <;> linarith
    · have hy' := not_le.mp hy
      have : (⌈y⌉ : ℚ) < 1 := by linarith
      have h0 : ⌈y⌉ ≤ 0 := by
        have : ⌈y⌉ < 1 := by exact_mod_cast this
        omega
      have h1 : -1 < ⌈y⌉ := by
        rw [Int.lt_ceil]; push_cast; linarith
      have h2 : ⌊x⌋ < 1 := by
        rw [Int.floor_lt]; push_cast; linarith
      have h3 : 0 ≤ ⌊x⌋ := Int.floor_nonneg.mpr hx
      have e1 : ⌈y⌉ = 0 := by omega
      have e2 : ⌊x⌋ = 0 := by omega
      rw [e1, e2]
      norm_num
    · have hx' := not_le.mp hx
      have h1 : -1 < ⌈x⌉ := by
        rw [Int.lt_ceil]; push_cast; linarith
      have h0 : ⌈x⌉ ≤ 0 := by
        have : (⌈x⌉ : ℚ) < 1 := by linarith
        have : ⌈x⌉ < 1 := by exact_mod_cast this
        omega
      have h2 : ⌊y⌋ < 1 := by
        rw [Int.floor_lt]; push_cast; linarith
      have h3 : 0 ≤ ⌊y⌋ := Int.floor_nonneg.mpr hy
      have e1 : ⌈x⌉ = 0 := by omega
      have e2 : ⌊y⌋ = 0 := by omega
      rw [e1, e2]
      norm_num
    · constructor <;> linarith
  have k1 : truncate x - truncate y < 2 := by exact_mod_cast key.1
  have k2 : -2 < truncate x - truncate y := by exact_mod_cast key.2
  rw [abs_le]
  constructor <;> omega

theorem abs_truncate_le (x : ℚ) : |((truncate x : Int) : ℚ)| ≤ |x| := by
  unfold truncate
  split_ifs with hx
  · rw [abs_of_nonneg hx, abs_of_nonneg (by exact_mod_cast Int.floor_nonneg.mpr hx)]
    exact Int.floor_le x
  · have hx' := le_of_lt (not_le.mp hx)
    have : ⌈x⌉ ≤ 0 := Int.ceil_le.mpr (by simpa using hx')
    rw [abs_of_nonpos hx', abs_of_nonpos (by exact_mod_cast this)]
    linarith [Int.le_ceil x]

/-- For dimensions below `2^21` the `float32` scaling is within 1 of the exact one. -/
theorem scale32_close {a m d : Int} (ha : |a| < 2 ^ 21) (hm : 0 < m) (hmd : m < d)
    (hd : d < 2 ^ 21) : |scale32 a m d - specScale a m d| ≤ 1 := by
  have ha' : |a| < 2 ^ 24 := lt_trans ha (by norm_num)
  have hm' : |m| < 2 ^ 24 := by rw [abs_of_pos hm]; omega
  have hd' : |d| < 2 ^ 24 := by rw [abs_of_pos (by omega)]; omega
  unfold scale32 specScale
  rw [float32_intCast ha', float32_intCast hm', float32_intCast hd']
  have hdq : (0 : ℚ) < (d : ℚ) := by exact_mod_cast (by omega : 0 < d)
  have hq0 : (0 : ℚ) ≤ (m : ℚ) / (d : ℚ) := div_nonneg (by exact_mod_cast le_of_lt hm) (le_of_lt hdq)
  have hq1 : (m : ℚ) / (d : ℚ) ≤ 1 := by
    rw [div_le_one hdq]; exact_mod_cast le_of_lt hmd
  have haq : |(a : ℚ)| ≤ 2 ^ 21 := by
    have : |(a : ℚ)| < 2 ^ 21 := by exact_mod_cast ha
    exact le_of_lt this
  have er := roundFloat_error 24 ((m : ℚ) / (d : ℚ))
  rw [abs_of_nonneg hq0] at er
  have er2 : |float32 ((m : ℚ) / (d : ℚ)) - (m : ℚ) / (d : ℚ)| ≤ 1 / 2 ^ 24 :=
    le_trans er (div_le_div_of_nonneg_right hq1 (by positivity))
  have hr : |float32 ((m : ℚ) / (d : ℚ))| ≤ 2 := by
    have := abs_le.mp er2
    rw [abs_le]
    constructor <;> [linarith [this.1]; linarith [this.2, show (1 : ℚ) / 2 ^ 24 ≤ 1 by norm_num]]
  have ev := roundFloat_error 24 ((a : ℚ) * float32 ((m : ℚ) / (d : ℚ)))
  have ev2 : |float32 ((a : ℚ) * float32 ((m : ℚ) / (d : ℚ))) - (a : ℚ) * float32 ((m : ℚ) / (d : ℚ))|
      ≤ 2 ^ 21 * 2 / 2 ^ 24 := by
    refine le_trans ev (div_le_div_of_nonneg_right ?_ (by positivity))
    rw [abs_mul]
    exact mul_le_mul haq hr (abs_nonneg _) (by positivity)
  have ew : |(a : ℚ) * float32 ((m : ℚ) / (d : ℚ)) - (a : ℚ) * ((m : ℚ) / (d : ℚ))|
      ≤ 2 ^ 21 * (1 / 2 ^ 24) := by
    rw [← mul_sub, abs_mul]
    exact mul_le_mul haq er2 (abs_nonneg _) (by positivity)
  have tot : |float32 ((a : ℚ) * float32 ((m : ℚ) / (d : ℚ))) - (a : ℚ) * ((m : ℚ) / (d : ℚ))| < 1 := by
    have := abs_sub_le (float32 ((a : ℚ) * float32 ((m : ℚ) / (d : ℚ))))
      ((a : ℚ) * float32 ((m : ℚ) / (d : ℚ))) ((a : ℚ) * ((m : ℚ) / (d : ℚ)))
    have e : (2 : ℚ) ^ 21 * 2 / 2 ^ 24 + 2 ^ 21 * (1 / 2 ^ 24) < 1 := by norm_num
    linarith
  have hv : |float32 ((a : ℚ) * float32 ((m : ℚ) / (d : ℚ)))| ≤ 2 ^ 22 + 1 := by
    have h1 : |(a : ℚ) * float32 ((m : ℚ) / (d : ℚ))| ≤ 2 ^ 21 * 2 := by
      rw [abs_mul]
      exact mul_le_mul haq hr (abs_nonneg _) (by positivity)
    have h2 := abs_sub_abs_le_abs_sub (float32 ((a : ℚ) * float32 ((m : ℚ) / (d : ℚ))))
      ((a : ℚ) * float32 ((m : ℚ) / (d : ℚ)))
    have e : (2 : ℚ) ^ 21 * 2 + 2 ^ 21 * 2 / 2 ^ 24 ≤ 2 ^ 22 + 1 := by norm_num
    linarith
  have ht : |truncate (float32 ((a : ℚ) * float32 ((m : ℚ) / (d : ℚ))))| ≤ 2 ^ 22 + 1 := by
    have := le_trans (abs_truncate_le (float32 ((a : ℚ) * float32 ((m : ℚ) / (d : ℚ))))) hv
    exact_mod_cast this
  have hg : goInt (float32 ((a : ℚ) * float32 ((m : ℚ) / (d : ℚ))))
      = truncate (float32 ((a : ℚ) * float32 ((m : ℚ) / (d : ℚ)))) := by
    unfold goInt
    rw [abs_le] at ht
    rw [if_pos]
    constructor <;> norm_num at ht ⊢ <;> omega
  rw [hg]
  exact truncate_close tot

/-- Rounding never turns a non-zero value into zero. -/
theorem roundFloat_ne_zero {p : Nat} (hp : 1 ≤ p) {x : ℚ} (hx : x ≠ 0) : roundFloat p x ≠ 0 := by
  intro h
  have e := roundFloat_error p x
  rw [h, zero_sub, abs_neg] at e
  have hpos : 0 < |x| := abs_pos.mpr hx
  have h2 : (2 : ℚ) ≤ 2 ^ p := by
    calc (2 : ℚ) = 2 ^ 1 := by norm_num
      _ ≤ 2 ^ p := pow_le_pow_right₀ (by norm_num) hp
  have h3 : |x| / 2 ^ p ≤ |x| / 2 := div_le_div_of_nonneg_left (le_of_lt hpos) (by norm_num) h2
  linarith

theorem float_intCast_ne_zero {n : Int} (hn : n ≠ 0) :
    float32 (n : ℚ) ≠ 0 ∧ float64 (n : ℚ) ≠ 0 :=
  ⟨roundFloat_ne_zero (by norm_num) (by exact_mod_cast hn),
    roundFloat_ne_zero (by norm_num) (by exact_mod_cast hn)⟩

theorem calcNewSizeDivisions_ne_zero (o : Options) :
    ∀ d ∈ calcNewSizeDivisions o, d.2 ≠ 0 := by
  intro d hd
  unfold calcNewSizeDivisions at hd
  split_ifs at hd with h1 h2 h3 h4 h5 h6 h7 <;> simp at hd <;> subst hd <;>
    refine (float_intCast_ne_zero ?_).1 <;> omega

theorem floor_le_roundHalfEven (y : ℚ) : ⌊y⌋ ≤ roundHalfEven y := by
  unfold roundHalfEven
  split_ifs <;> omega

theorem intCast_le_roundHalfEven {j : Int} {y : ℚ} (h : (j : ℚ) ≤ y) : j ≤ roundHalfEven y :=
  le_trans (Int.le_floor.mpr h) (floor_le_roundHalfEven y)

theorem roundHalfEven_le_intCast {j : Int} {y : ℚ} (h : y ≤ (j : ℚ)) : roundHalfEven y ≤ j := by
  have h1 := Int.floor_le y
  have hf : ⌊y⌋ ≤ j := by
    have : (⌊y⌋ : ℚ) ≤ j := le_trans h1 h
    exact_mod_cast this
  unfold roundHalfEven
  split_ifs with a b c
  · exact hf
  · have : (⌊y⌋ : ℚ) < j := by linarith
    have : ⌊y⌋ < j := by exact_mod_cast this
    omega
  · exact hf
  · have a' := not_lt.mp a
    have : (⌊y⌋ : ℚ) < j := by linarith
    have : ⌊y⌋ < j := by exact_mod_cast this
    omega

/-- Rounding does not cross an integer: below `2^p` in absolute value the
integers lie on the grid of the `p`-bit floating-point numbers. -/
theorem roundFloat_int_bounds {p : Nat} {x : ℚ} (hx : |x| < 2 ^ p) (k : Int) :
    ((k : ℚ) ≤ x → (k : ℚ) ≤ roundFloat p x) ∧ (x ≤ (k : ℚ) → roundFloat p x ≤ (k : ℚ)) := by
  unfold roundFloat
  split_ifs with h0
  · rw [h0]
    exact ⟨id, id⟩
  · have h1 := zpow_binExp_le h0
    have h3 : (2 : ℚ) ^ binExp x < (2 : ℚ) ^ (p : Int) := by
      rw [zpow_natCast]; exact lt_of_le_of_lt h1 hx
    have h4 : binExp x < p := (zpow_lt_zpow_iff_right₀ (by norm_num)).mp h3
    obtain ⟨s, hs⟩ : ∃ s : Nat, binExp x - p + 1 = -(s : Int) :=
      ⟨(p - 1 - binExp x).toNat, by omega⟩
    rw [hs, zpow_neg, zpow_natCast, div_inv_eq_mul]
    have hpos : (0 : ℚ) < 2 ^ s := by positivity
    constructor
    · intro hk
      have : ((k * 2 ^ s : Int) : ℚ) ≤ x * 2 ^ s := by
        push_cast
        exact mul_le_mul_of_nonneg_right hk (le_of_lt hpos)
      have hj := intCast_le_roundHalfEven this
      have hj' : ((k * 2 ^ s : Int) : ℚ) ≤ (roundHalfEven (x * 2 ^ s) : ℚ) := by exact_mod_cast hj
      push_cast at hj'
      rw [← div_eq_mul_inv, le_div_iff₀ hpos]
      exact hj'
    · intro hk
      have : x * 2 ^ s ≤ ((k * 2 ^ s : Int) : ℚ) := by
        push_cast
        exact mul_le_mul_of_nonneg_right hk (le_of_lt hpos)
      have hj := roundHalfEven_le_intCast this
      have hj' : (roundHalfEven (x * 2 ^ s) : ℚ) ≤ ((k * 2 ^ s : Int) : ℚ) := by exact_mod_cast hj
      push_cast at hj'
      rw [← div_eq_mul_inv, div_le_iff₀ hpos]
      exact hj'

/-- The floor of a rounded value is less than one away from the value itself. -/
theorem floor_round_close {p : Nat} {x : ℚ} (hx : |x| < 2 ^ p) :
    |((⌊roundFloat p x⌋ : Int) : ℚ) - x| < 1 := by
  have h1 := Int.floor_le (roundFloat p x)
  have h2 := Int.lt_floor_add_one (roundFloat p x)
  rw [abs_lt]
  constructor
  · by_contra hc
    have hc' : ((⌊roundFloat p x⌋ + 1 : Int) : ℚ) ≤ x := by
      push_cast; linarith [not_lt.mp hc]
    have := (roundFloat_int_bounds hx (⌊roundFloat p x⌋ + 1)).1 hc'
    push_cast at this
    linarith
  · by_contra hc
    have hc' : x ≤ ((⌊roundFloat p x⌋ - 1 : Int) : ℚ) := by
      push_cast; linarith [not_lt.mp hc]
    have := (roundFloat_int_bounds hx (⌊roundFloat p x⌋ - 1)).2 hc'
    push_cast at this
    linarith

/-- The ceiling of a rounded value is less than one away from the value itself. -/
theorem ceil_round_close {p : Nat} {x : ℚ} (hx : |x| < 2 ^ p) :
    |((⌈roundFloat p x⌉ : Int) : ℚ) - x| < 1 := by
  have h1 := Int.le_ceil (roundFloat p x)
  have h2 := Int.ceil_lt_add_one (roundFloat p x)
  rw [abs_lt]
  constructor
  · by_contra hc
    have hc' : ((⌈roundFloat p x⌉ + 1 : Int) : ℚ) ≤ x := by
      push_cast; linarith [not_lt.mp hc]
    have := (roundFloat_int_bounds hx (⌈roundFloat p x⌉ + 1)).1 hc'
    push_cast at this
    linarith
  · by_contra hc
    have hc' : x ≤ ((⌈roundFloat p x⌉ - 1 : Int) : ℚ) := by
      push_cast; linarith [not_lt.mp hc]
    have := (roundFloat_int_bounds hx (⌈roundFloat p x⌉ - 1)).2 hc'
    push_cast at this
    linarith

theorem floor_close {x y : ℚ} (h : |x - y| < 1) : |⌊x⌋ - ⌊y⌋| ≤ 1 := by
  rw [abs_lt] at h
  have fx1 := Int.floor_le x
  have fx2 := Int.lt_floor_add_one x
  have fy1 := Int.floor_le y
  have fy2 := Int.lt_floor_add_one y
  have k1 : ((⌊x⌋ - ⌊y⌋ : Int) : ℚ) < 2 := by push_cast; linarith
  have k2 : (-2 : ℚ) < ((⌊x⌋ - ⌊y⌋ : Int) : ℚ) := by push_cast; linarith
  have k1' : ⌊x⌋ - ⌊y⌋ < 2 := by exact_mod_cast k1
  have k2' : -2 < ⌊x⌋ - ⌊y⌋ := by exact_mod_cast k2
  rw [abs_le]
  constructor <;> omega

theorem ceil_close {x y : ℚ} (h : |x - y| < 1) : |⌈x⌉ - ⌈y⌉| ≤ 1 := by
  rw [abs_lt] at h
  have cx1 := Int.le_ceil x
  have cx2 := Int.ceil_lt_add_one x
  have cy1 := Int.le_ceil y
  have cy2 := Int.ceil_lt_add_one y
  have k1 : ((⌈x⌉ - ⌈y⌉ : Int) : ℚ) < 2 := by push_cast; linarith
  have k2 : (-2 : ℚ) < ((⌈x⌉ - ⌈y⌉ : Int) : ℚ) := by push_cast; linarith
  have k1' : ⌈x⌉ - ⌈y⌉ < 2 := by exact_mod_cast k1
  have k2' : -2 < ⌈x⌉ - ⌈y⌉ := by exact_mod_cast k2
  rw [abs_le]
  constructor <;> omega

theorem min_round_bounds {p : Nat} {a b : ℚ} (ha : 0 ≤ a) (hb : 0 ≤ b) :
    min a b * (1 - 1 / 2 ^ p) ≤ min (roundFloat p a) (roundFloat p b) ∧
    min (roundFloat p a) (roundFloat p b) ≤ min a b * (1 + 1 / 2 ^ p) := by
  have hu : (0 : ℚ) ≤ 1 - 1 / 2 ^ p := by
    have : (1 : ℚ) / 2 ^ p ≤ 1 := by
      rw [div_le_one (by positivity)]
      exact one_le_pow₀ (by norm_num)
    linarith
  have hu2 : (0 : ℚ) ≤ 1 + 1 / 2 ^ p := by positivity
  constructor
  · apply le_min
    · exact le_trans (mul_le_mul_of_nonneg_right (min_le_left a b) hu) (le_roundFloat ha)
    · exact le_trans (mul_le_mul_of_nonneg_right (min_le_right a b) hu) (le_roundFloat hb)
  · rcases le_total a b with h | h
    · rw [min_eq_left h]
      exact le_trans (min_le_left _ _) (roundFloat_le ha)
    · rw [min_eq_right h]
      exact le_trans (min_le_right _ _) (roundFloat_le hb)

theorem max_round_bounds {p : Nat} {a b : ℚ} (ha : 0 ≤ a) (hb : 0 ≤ b) :
    max a b * (1 - 1 / 2 ^ p) ≤ max (roundFloat p a) (roundFloat p b) ∧
    max (roundFloat p a) (roundFloat p b) ≤ max a b * (1 + 1 / 2 ^ p) := by
  have hu2 : (0 : ℚ) ≤ 1 + 1 / 2 ^ p := by positivity
  constructor
  · rcases le_total a b with h | h
    · rw [max_eq_right h]
      exact le_trans (le_roundFloat hb) (le_max_right _ _)
    · rw [max_eq_left h]
      exact le_trans (le_roundFloat ha) (le_max_left _ _)
  · apply max_le
    · exact le_trans (roundFloat_le ha) (mul_le_mul_of_nonneg_right (le_max_left a b) hu2)
    · exact le_trans (roundFloat_le hb) (mul_le_mul_of_nonneg_right (le_max_right a b) hu2)

/-- A source dimension `s` scaled by a ratio `r` within one rounding of the exact
ratio `m`: the rounded product lies within two roundings of `s * m`; when
`s * m ≤ 2^32` it is less than 1 away from it, and `s * r` is below `2^53`. -/
theorem scaled64_facts {s : Int} {r m : ℚ} (hs : 0 < s) (hs2 : s < 2 ^ 31) (hm : 0 ≤ m)
    (hlo : m * (1 - 1 / 2 ^ 53) ≤ r) (hhi : r ≤ m * (1 + 1 / 2 ^ 53)) :
    (s : ℚ) * m * ((1 - 1 / 2 ^ 53) * (1 - 1 / 2 ^ 53)) ≤ float64 (float64 s * r) ∧
    ((s : ℚ) * m ≤ 2 ^ 32 →
      |float64 (float64 s * r) - (s : ℚ) * m| < 1 ∧ |(s : ℚ) * r| < 2 ^ 53) := by
  rw [float64_intCast (by omega) hs2]
  have hsq : (0 : ℚ) < (s : ℚ) := by exact_mod_cast hs
  have hr0 : 0 ≤ r := le_trans (mul_nonneg hm (by norm_num)) hlo
  have hx0 : (0 : ℚ) ≤ (s : ℚ) * r := mul_nonneg (le_of_lt hsq) hr0
  have hE0 : (0 : ℚ) ≤ (s : ℚ) * m := mul_nonneg (le_of_lt hsq) hm
  have v1 : (s : ℚ) * r * (1 - 1 / 2 ^ 53) ≤ float64 ((s : ℚ) * r) := le_roundFloat hx0
  have v2 : float64 ((s : ℚ) * r) ≤ (s : ℚ) * r * (1 + 1 / 2 ^ 53) := roundFloat_le hx0
  have x1 : (s : ℚ) * m * (1 - 1 / 2 ^ 53) ≤ (s : ℚ) * r := by
    calc (s : ℚ) * m * (1 - 1 / 2 ^ 53) = (s : ℚ) * (m * (1 - 1 / 2 ^ 53)) := by ring
      _ ≤ (s : ℚ) * r := mul_le_mul_of_nonneg_left hlo (le_of_lt hsq)
  have x2 : (s : ℚ) * r ≤ (s : ℚ) * m * (1 + 1 / 2 ^ 53) := by
    calc (s : ℚ) * r ≤ (s : ℚ) * (m * (1 + 1 / 2 ^ 53)) :=
          mul_le_mul_of_nonneg_left hhi (le_of_lt hsq)
      _ = (s : ℚ) * m * (1 + 1 / 2 ^ 53) := by ring
  have lo : (s : ℚ) * m * ((1 - 1 / 2 ^ 53) * (1 - 1 / 2 ^ 53)) ≤ float64 ((s : ℚ) * r) := by
    calc (s : ℚ) * m * ((1 - 1 / 2 ^ 53) * (1 - 1 / 2 ^ 53))
        = (s : ℚ) * m * (1 - 1 / 2 ^ 53) * (1 - 1 / 2 ^ 53) := by ring
      _ ≤ (s : ℚ) * r * (1 - 1 / 2 ^ 53) := mul_le_mul_of_nonneg_right x1 (by norm_num)
      _ ≤ float64 ((s : ℚ) * r) := v1
  have hi : float64 ((s : ℚ) * r) ≤ (s : ℚ) * m * ((1 + 1 / 2 ^ 53) * (1 + 1 / 2 ^ 53)) := by
    calc float64 ((s : ℚ) * r) ≤ (s : ℚ) * r * (1 + 1 / 2 ^ 53) := v2
      _ ≤ (s : ℚ) * m * (1 + 1 / 2 ^ 53) * (1 + 1 / 2 ^ 53) :=
          mul_le_mul_of_nonneg_right x2 (by norm_num)
      _ = (s : ℚ) * m * ((1 + 1 / 2 ^ 53) * (1 + 1 / 2 ^ 53)) := by ring
  refine ⟨lo, fun hE => ?_⟩
  have c1 : (1 - 1 / 2 ^ 33 : ℚ) ≤ (1 - 1 / 2 ^ 53) * (1 - 1 / 2 ^ 53) := by norm_num
  have c2 : (1 + 1 / 2 ^ 53 : ℚ) * (1 + 1 / 2 ^ 53) ≤ 1 + 1 / 2 ^ 33 := by norm_num
  have c3 : (1 + 1 / 2 ^ 53 : ℚ) ≤ 2 := by norm_num
  have l1 := mul_le_mul_of_nonneg_left c1 hE0
  have l2 := mul_le_mul_of_nonneg_left c2 hE0
  have l3 := mul_le_mul_of_nonneg_left c3 hE0
  have e33 : (s : ℚ) * m * (1 / 2 ^ 33) ≤ 1 / 2 := by
    have := mul_le_mul_of_nonneg_right hE (show (0 : ℚ) ≤ 1 / 2 ^ 33 by norm_num)
    linarith [show (2 : ℚ) ^ 32 * (1 / 2 ^ 33) = 1 / 2 by norm_num]
  constructor
  · rw [abs_lt]
    constructor <;> nlinarith
  · rw [abs_of_nonneg hx0]
    have : (2 : ℚ) ^ 32 * 2 < 2 ^ 53 := by norm_num
    nlinarith

theorem origin_eq_specOrigin {gravity : Gravity} (hg : 0 ≤ gravity ∧ gravity ≤ 8)
    {W H w h : Int} (hw0 : 0 ≤ w) (hw : w ≤ W) (hW : W < 2 ^ 31)
    (hh0 : 0 ≤ h) (hh : h ≤ H) (hH : H < 2 ^ 31) :
    specOrigin gravity W H w h = some (origin gravity ⟨W, H⟩ ⟨w, h⟩) := by
  have hx : cSub W w = W - w := by
    unfold cSub
    apply cInt_eq_self <;> norm_num at hW ⊢ <;> omega
  have hy : cSub H h = H - h := by
    unfold cSub
    apply cInt_eq_self <;> norm_num at hH ⊢ <;> omega
  obtain ⟨g0, g8⟩ := hg
  unfold origin specOrigin cHalf
  simp only [hx, hy]
  interval_cases gravity <;> simp [CENTER, NORTH, SOUTH, WEST, EAST, NORTH_WEST, NORTH_EAST,
    SOUTH_WEST, SOUTH_EAST]

theorem fitRatio_eq {size : CvSize} {src : IplImage}
    (hsw : 0 < src.width) (hsw2 : src.width < 2 ^ 31)
    (hsh : 0 < src.height) (hsh2 : src.height < 2 ^ 31)
    (hW : 0 ≤ size.width) (hW2 : size.width < 2 ^ 31)
    (hH : 0 ≤ size.height) (hH2 : size.height < 2 ^ 31) :
    fitRatio size src = min (float64 ((size.width : ℚ) / (src.width : ℚ)))
      (float64 ((size.height : ℚ) / (src.height : ℚ))) := by
  unfold fitRatio
  rw [float64_intCast (by omega) hW2, float64_intCast (by omega) hsw2,
    float64_intCast (by omega) hH2, float64_intCast (by omega) hsh2]

theorem fillRatio_eq {size : CvSize} {src : IplImage}
    (hsw : 0 < src.width) (hsw2 : src.width < 2 ^ 31)
    (hsh : 0 < src.height) (hsh2 : src.height < 2 ^ 31)
    (hW : 0 ≤ size.width) (hW2 : size.width < 2 ^ 31)
    (hH : 0 ≤ size.height) (hH2 : size.height < 2 ^ 31) :
    fillRatio size src = max (float64 ((size.width : ℚ) / (src.width : ℚ)))
      (float64 ((size.height : ℚ) / (src.height : ℚ))) := by
  unfold fillRatio
  rw [float64_intCast (by omega) hW2, float64_intCast (by omega) hsw2,
    float64_intCast (by omega) hH2, float64_intCast (by omega) hsh2]

/-- The `FIT` dimension computed from the source dimension `s`: the C `int`
conversion is exact, the value is within 1 of the exact `specFit`, and it is
less than 1 away from `s * ratio`. -/
theorem fit_dim_facts {size : CvSize} {src : IplImage} {s : Int}
    (hs : s = src.width ∨ s = src.height)
    (hsw : 0 < src.width) (hsw2 : src.width < 2 ^ 31)
    (hsh : 0 < src.height) (hsh2 : src.height < 2 ^ 31)
    (hW : 0 ≤ size.width) (hW2 : size.width < 2 ^ 31)
    (hH : 0 ≤ size.height) (hH2 : size.height < 2 ^ 31) :
    cIntOfFloat ⌊float64 (float64 s * fitRatio size src)⌋
        = ⌊float64 ((s : ℚ) * fitRatio size src)⌋ ∧
    |⌊float64 ((s : ℚ) * fitRatio size src)⌋
        - specFit s src.width src.height size.width size.height| ≤ 1 ∧
    |((⌊float64 ((s : ℚ) * fitRatio size src)⌋ : Int) : ℚ) - (s : ℚ) * fitRatio size src| < 1 := by
  have hs0 : 0 < s := by rcases hs with h | h <;> omega
  have hs2 : s < 2 ^ 31 := by rcases hs with h | h <;> omega
  have hswq : (0 : ℚ) < (src.width : ℚ) := by exact_mod_cast hsw
  have hshq : (0 : ℚ) < (src.height : ℚ) := by exact_mod_cast hsh
  have hWq : (0 : ℚ) ≤ (size.width : ℚ) := by exact_mod_cast hW
  have hHq : (0 : ℚ) ≤ (size.height : ℚ) := by exact_mod_cast hH
  have hW2q : (size.width : ℚ) < 2 ^ 31 := by exact_mod_cast hW2
  have hH2q : (size.height : ℚ) < 2 ^ 31 := by exact_mod_cast hH2
  have ha : (0 : ℚ) ≤ (size.width : ℚ) / (src.width : ℚ) := div_nonneg hWq (le_of_lt hswq)
  have hb : (0 : ℚ) ≤ (size.height : ℚ) / (src.height : ℚ) := div_nonneg hHq (le_of_lt hshq)
  have hr := fitRatio_eq hsw hsw2 hsh hsh2 hW hW2 hH hH2
  have bnd := min_round_bounds (p := 53) ha hb
  have hE : (s : ℚ) * min ((size.width : ℚ) / (src.width : ℚ))
      ((size.height : ℚ) / (src.height : ℚ)) ≤ 2 ^ 32 := by
    rcases hs with h | h
    · rw [h]
      have : (src.width : ℚ) * min ((size.width : ℚ) / (src.width : ℚ))
          ((size.height : ℚ) / (src.height : ℚ)) ≤ (src.width : ℚ) * ((size.width : ℚ) / (src.width : ℚ)) :=
        mul_le_mul_of_nonneg_left (min_le_left _ _) (le_of_lt hswq)
      have e : (src.width : ℚ) * ((size.width : ℚ) / (src.width : ℚ)) = size.width := by field_simp
      rw [e] at this
      linarith [show (2 : ℚ) ^ 31 ≤ 2 ^ 32 by norm_num]
    · rw [h]
      have : (src.height : ℚ) * min ((size.width : ℚ) / (src.width : ℚ))
          ((size.height : ℚ) / (src.height : ℚ)) ≤ (src.height : ℚ) * ((size.height : ℚ) / (src.height : ℚ)) :=
        mul_le_mul_of_nonneg_left (min_le_right _ _) (le_of_lt hshq)
      have e : (src.height : ℚ) * ((size.height : ℚ) / (src.height : ℚ)) = size.height := by field_simp
      rw [e] at this
      linarith [show (2 : ℚ) ^ 31 ≤ 2 ^ 32 by norm_num]
  have facts := (scaled64_facts (r := fitRatio size src) hs0 hs2 (le_min ha hb)
    (by rw [hr]; exact bnd.1) (by rw [hr]; exact bnd.2)).2 hE
  rw [float64_intCast (by omega) hs2] at facts ⊢
  have hr0 : 0 ≤ fitRatio size src := by
    rw [hr]
    exact le_min (roundFloat_nonneg ha) (roundFloat_nonneg hb)
  have hrange : 0 ≤ ⌊float64 ((s : ℚ) * fitRatio size src)⌋ ∧
      ⌊float64 ((s : ℚ) * fitRatio size src)⌋ < 2 ^ 31 := by
    rcases hs with h | h
    · have := floor_scaled_le hsw hsw2 hW hW2 hr0 (min_le_left _ _ : fitRatio size src ≤ _)
      rw [float64_intCast (by omega) hsw2] at this
      rw [h]
      exact ⟨this.1, by omega⟩
    · have := floor_scaled_le hsh hsh2 hH hH2 hr0 (min_le_right _ _ : fitRatio size src ≤ _)
      rw [float64_intCast (by omega) hsh2] at this
      rw [h]
      exact ⟨this.1, by omega⟩
  refine ⟨cIntOfFloat_intCast (by omega) hrange.2, ?_, ?_⟩
  · unfold specFit
    exact floor_close facts.1
  · exact floor_round_close facts.2

/-- The `FILL` intermediate dimension computed from the source dimension `s`,
when it fits a C `int`: the conversion is exact, the value is within 1 of the
exact `specFill`, and it is less than 1 away from `s * ratio`. -/
theorem fill_dim_facts {size : CvSize} {src : IplImage} {s : Int}
    (hs : s = src.width ∨ s = src.height)
    (hsw : 0 < src.width) (hsw2 : src.width < 2 ^ 31)
    (hsh : 0 < src.height) (hsh2 : src.height < 2 ^ 31)
    (hW : 0 ≤ size.width) (hW2 : size.width < 2 ^ 31)
    (hH : 0 ≤ size.height) (hH2 : size.height < 2 ^ 31)
    (hfit : ⌈float64 (float64 s * fillRatio size src)⌉ < 2 ^ 31) :
    cIntOfFloat ⌈float64 (float64 s * fillRatio size src)⌉
        = ⌈float64 ((s : ℚ) * fillRatio size src)⌉ ∧
    |⌈float64 ((s : ℚ) * fillRatio size src)⌉
        - specFill s src.width src.height size.width size.height| ≤ 1 ∧
    |((⌈float64 ((s : ℚ) * fillRatio size src)⌉ : Int) : ℚ) - (s : ℚ) * fillRatio size src| < 1 := by
  have hs0 : 0 < s := by rcases hs with h | h <;> omega
  have hs2 : s < 2 ^ 31 := by rcases hs with h | h <;> omega
  have hsq : (0 : ℚ) < (s : ℚ) := by exact_mod_cast hs0
  have hswq : (0 : ℚ) < (src.width : ℚ) := by exact_mod_cast hsw
  have hshq : (0 : ℚ) < (src.height : ℚ) := by exact_mod_cast hsh
  have hWq : (0 : ℚ) ≤ (size.width : ℚ) := by exact_mod_cast hW
  have hHq : (0 : ℚ) ≤ (size.height : ℚ) := by exact_mod_cast hH
  have ha : (0 : ℚ) ≤ (size.width : ℚ) / (src.width : ℚ) := div_nonneg hWq (le_of_lt hswq)
  have hb : (0 : ℚ) ≤ (size.height : ℚ) / (src.height : ℚ) := div_nonneg hHq (le_of_lt hshq)
  have hr := fillRatio_eq hsw hsw2 hsh hsh2 hW hW2 hH hH2
  have bnd := max_round_bounds (p := 53) ha hb
  have hm : (0 : ℚ) ≤ max ((size.width : ℚ) / (src.width : ℚ))
      ((size.height : ℚ) / (src.height : ℚ)) := le_trans ha (le_max_left _ _)
  have all := scaled64_facts (r := fillRatio size src) hs0 hs2 hm
    (by rw [hr]; exact bnd.1) (by rw [hr]; exact bnd.2)
  rw [float64_intCast (by omega) hs2] at all hfit ⊢
  have hr0 : 0 ≤ fillRatio size src := by
    rw [hr]
    exact le_trans (roundFloat_nonneg ha) (le_max_left _ _)
  have hv0 : 0 ≤ float64 ((s : ℚ) * fillRatio size src) :=
    roundFloat_nonneg (mul_nonneg (le_of_lt hsq) hr0)
  have hc0 : 0 ≤ ⌈float64 ((s : ℚ) * fillRatio size src)⌉ := Int.ceil_nonneg hv0
  have hvlt : float64 ((s : ℚ) * fillRatio size src) < 2 ^ 31 := by
    have h1 := Int.le_ceil (float64 ((s : ℚ) * fillRatio size src))
    have h2 : ((⌈float64 ((s : ℚ) * fillRatio size src)⌉ : Int) : ℚ) < 2 ^ 31 := by
      exact_mod_cast hfit
    linarith
  have hE : (s : ℚ) * max ((size.width : ℚ) / (src.width : ℚ))
      ((size.height : ℚ) / (src.height : ℚ)) ≤ 2 ^ 32 := by
    have c : (1 / 2 : ℚ) ≤ (1 - 1 / 2 ^ 53) * (1 - 1 / 2 ^ 53) := by norm_num
    have := mul_le_mul_of_nonneg_left c (mul_nonneg (le_of_lt hsq) hm)
    have e : (2 : ℚ) ^ 32 = 2 * 2 ^ 31 := by norm_num
    linarith [all.1]
  have facts := all.2 hE
  refine ⟨cIntOfFloat_intCast (by omega) hfit, ?_, ?_⟩
  · unfold specFill
    exact ceil_close facts.1
  · exact ceil_round_close facts.2

/-- Two dimensions each less than 1 away from the source dimension times one
ratio keep the aspect: `|w * sh - h * sw| < sw + sh`. -/
theorem aspect_of_close {w h sw sh : Int} {r : ℚ} (hsw : 0 < sw) (hsh : 0 < sh)
    (hw : |(w : ℚ) - (sw : ℚ) * r| < 1) (hh : |(h : ℚ) - (sh : ℚ) * r| < 1) :
    |w * sh - h * sw| < sw + sh := by
  have hswq : (0 : ℚ) < (sw : ℚ) := by exact_mod_cast hsw
  have hshq : (0 : ℚ) < (sh : ℚ) := by exact_mod_cast hsh
  rw [abs_lt] at hw hh
  have e : ((w * sh - h * sw : Int) : ℚ)
      = ((w : ℚ) - (sw : ℚ) * r) * sh - ((h : ℚ) - (sh : ℚ) * r) * sw := by
    push_cast
    ring
  have u1 : ((w : ℚ) - (sw : ℚ) * r) * sh < 1 * sh := mul_lt_mul_of_pos_right hw.2 hshq
  have u2 : -1 * (sh : ℚ) < ((w : ℚ) - (sw : ℚ) * r) * sh := mul_lt_mul_of_pos_right hw.1 hshq
  have u3 : ((h : ℚ) - (sh : ℚ) * r) * sw < 1 * sw := mul_lt_mul_of_pos_right hh.2 hswq
  have u4 : -1 * (sw : ℚ) < ((h : ℚ) - (sh : ℚ) * r) * sw := mul_lt_mul_of_pos_right hh.1 hswq
  have k1 : ((w * sh - h * sw : Int) : ℚ) < ((sw + sh : Int) : ℚ) := by
    rw [e]; push_cast; linarith
  have k2 : ((-(sw + sh) : Int) : ℚ) < ((w * sh - h * sw : Int) : ℚ) := by
    rw [e]; push_cast; linarith
  rw [abs_lt]
  exact ⟨by exact_mod_cast k2, by exact_mod_cast k1⟩

theorem floor_round_upper (p : Nat) (x : ℚ) :
    ((⌊roundFloat p x⌋ : Int) : ℚ) - x ≤ |x| / 2 ^ p := by
  have h1 := Int.floor_le (roundFloat p x)
  have h2 := (abs_le.mp (roundFloat_error p x)).2
  linarith

theorem ceil_round_lower (p : Nat) (x : ℚ) :
    -(|x| / 2 ^ p) ≤ ((⌈roundFloat p x⌉ : Int) : ℚ) - x := by
  have h1 := Int.le_ceil (roundFloat p x)
  have h2 := (abs_le.mp (roundFloat_error p x)).1
  linarith

/-- An integer dimension `w` less than 1 away from `x`, both below `2^27`: the
relative rounding error of `x`, scaled by a source dimension below `2^26`, stays
below 1. -/
theorem small_error_scaled {w t : Int} {x : ℚ} (hw : w < 2 ^ 26) (hwx : |(w : ℚ) - x| < 1)
    (hx0 : 0 ≤ x) (ht0 : 0 < t) (ht : t < 2 ^ 26) : |x| / 2 ^ 53 * (t : ℚ) < 1 := by
  have hwq : (w : ℚ) < 2 ^ 26 := by exact_mod_cast hw
  have htq : (t : ℚ) < 2 ^ 26 := by exact_mod_cast ht
  have ht0q : (0 : ℚ) < (t : ℚ) := by exact_mod_cast ht0
  rw [abs_lt] at hwx
  rw [abs_of_nonneg hx0]
  have hx : x < 2 ^ 27 := by
    have : (2 : ℚ) ^ 26 + 1 ≤ 2 ^ 27 := by norm_num
    linarith [hwx.1]
  have h1 : x / 2 ^ 53 < 2 ^ 27 / 2 ^ 53 := div_lt_div_of_pos_right hx (by positivity)
  have h2 : x / 2 ^ 53 * (t : ℚ) ≤ 2 ^ 27 / 2 ^ 53 * (t : ℚ) :=
    mul_le_mul_of_nonneg_right (le_of_lt h1) (le_of_lt ht0q)
  have h3 : (2 : ℚ) ^ 27 / 2 ^ 53 * (t : ℚ) < 2 ^ 27 / 2 ^ 53 * 2 ^ 26 :=
    mul_lt_mul_of_pos_left htq (by positivity)
  have h4 : (2 : ℚ) ^ 27 / 2 ^ 53 * 2 ^ 26 = 1 := by norm_num
  linarith

/-- The aspect bound `max(sw, sh)` from one-sided errors: `a = w - sw*r` and
`b = h - sh*r` lie in `(-1, 1)`, and on one side (`sgn = 1` above, as for the
floors of `FIT`; `sgn = -1` below, as for the ceilings of `FILL`) they are so
small that `a * sh` and `b * sw` stay below 1. -/
theorem aspect_tight {w h sw sh : Int} {r : ℚ} (sgn : ℚ) (hsgn : sgn = 1 ∨ sgn = -1)
    (hsw : 0 < sw) (hsh : 0 < sh)
    (hw : |(w : ℚ) - (sw : ℚ) * r| < 1) (hh : |(h : ℚ) - (sh : ℚ) * r| < 1)
    (hw2 : sgn * ((w : ℚ) - (sw : ℚ) * r) * sh < 1)
    (hh2 : sgn * ((h : ℚ) - (sh : ℚ) * r) * sw < 1) :
    |w * sh - h * sw| ≤ max sw sh := by
  have hswq : (0 : ℚ) < (sw : ℚ) := by exact_mod_cast hsw
  have hshq : (0 : ℚ) < (sh : ℚ) := by exact_mod_cast hsh
  rw [abs_lt] at hw hh
  have e : ((w * sh - h * sw : Int) : ℚ)
      = ((w : ℚ) - (sw : ℚ) * r) * sh - ((h : ℚ) - (sh : ℚ) * r) * sw := by
    push_cast
    ring
  have u1 : ((w : ℚ) - (sw : ℚ) * r) * sh < 1 * sh := mul_lt_mul_of_pos_right hw.2 hshq
  have u2 : -1 * (sh : ℚ) < ((w : ℚ) - (sw : ℚ) * r) * sh := mul_lt_mul_of_pos_right hw.1 hshq
  have u3 : ((h : ℚ) - (sh : ℚ) * r) * sw < 1 * sw := mul_lt_mul_of_pos_right hh.2 hswq
  have u4 : -1 * (sw : ℚ) < ((h : ℚ) - (sh : ℚ) * r) * sw := mul_lt_mul_of_pos_right hh.1 hswq
  rcases hsgn with hs | hs
  · rw [hs, one_mul] at hw2 hh2
    have k1 : ((w * sh - h * sw : Int) : ℚ) < ((sw + 1 : Int) : ℚ) := by
      rw [e]; push_cast; linarith
    have k2 : ((-(sh + 1) : Int) : ℚ) < ((w * sh - h * sw : Int) : ℚ) := by
      rw [e]; push_cast; linarith
    have k1' : w * sh - h * sw < sw + 1 := by exact_mod_cast k1
    have k2' : -(sh + 1) < w * sh - h * sw := by exact_mod_cast k2
    rw [abs_le]
    have m1 := le_max_left sw sh
    have m2 := le_max_right sw sh
    constructor <;> omega
  · rw [hs] at hw2 hh2
    have k1 : ((w * sh - h * sw : Int) : ℚ) < ((sh + 1 : Int) : ℚ) := by
      rw [e]; push_cast; linarith
    have k2 : ((-(sw + 1) : Int) : ℚ) < ((w * sh - h * sw : Int) : ℚ) := by
      rw [e]; push_cast; linarith
    have k1' : w * sh - h * sw < sh + 1 := by exact_mod_cast k1
    have k2' : -(sw + 1) < w * sh - h * sw := by exact_mod_cast k2
    rw [abs_le]
    have m1 := le_max_left sw sh
    have m2 := le_max_right sw sh
    constructor <;> omega

/-! ## Claims -/

/-- C1: in `calcNewSize` a positive `MaxSide` makes the result independent of
`MaxHeight` and `MaxWidth`, and with `MaxSide = 0` a positive `MaxHeight` makes
it independent of `MaxWidth`. -/
theorem calcNewSize_precedence (o : Options) (maxHeight maxWidth : Int) :
    (0 < o.MaxSide →
      calcNewSize { o with MaxHeight := maxHeight, MaxWidth := maxWidth } = calcNewSize o) ∧
    (o.MaxSide = 0 → 0 < o.MaxHeight →
      calcNewSize { o with MaxWidth := maxWidth } = calcNewSize o) := by
  constructor
  · intro h
    simp [calcNewSize, h]
  · intro h0 h
    simp [calcNewSize, h0, h]

theorem calcNewSize_precedence_witness :
    ((0 : Int) < 100 ∧
      calcNewSize { Width := 800, Height := 400, MaxSide := 100, MaxHeight := 7, MaxWidth := 9 }
        = calcNewSize { Width := 800, Height := 400, MaxSide := 100 }) ∧
    ((0 : Int) = 0 ∧ (0 : Int) < 50 ∧
      calcNewSize { Width := 800, Height := 400, MaxHeight := 50, MaxWidth := 9 }
        = calcNewSize { Width := 800, Height := 400, MaxHeight := 50 }) :=
  ⟨⟨by decide,
      (calcNewSize_precedence { Width := 800, Height := 400, MaxSide := 100 } 7 9).1 (by decide)⟩,
    ⟨rfl, by decide,
      (calcNewSize_precedence { Width := 800, Height := 400, MaxHeight := 50 } 0 9).2 rfl
        (by decide)⟩⟩

/-- C2: for a source of positive width and height, an output size of
non-negative width and height and every gravity, all sizes being C `int` values,
the `FIT` rectangle lies inside the output size, and the `FILL` rectangle,
computed from the intermediate image `mid`, lies inside it whenever the size of
`mid` is the intermediate size `(ceil(srcW * ratio), ceil(srcH * ratio))`; that
is the size `resize` asks the library for. -/
theorem placement_contained (size : CvSize) (src : IplImage) (gravity : Gravity)
    (hsw : 0 < src.width) (hsw2 : src.width < 2 ^ 31)
    (hsh : 0 < src.height) (hsh2 : src.height < 2 ^ 31)
    (hW : 0 ≤ size.width) (hW2 : size.width < 2 ^ 31)
    (hH : 0 ≤ size.height) (hH2 : size.height < 2 ^ 31) :
    (0 ≤ (fitRect size src gravity).x ∧ 0 ≤ (fitRect size src gravity).y ∧
      (fitRect size src gravity).x + (fitRect size src gravity).width ≤ size.width ∧
      (fitRect size src gravity).y + (fitRect size src gravity).height ≤ size.height) ∧
    (∀ mid : CvSize, mid.width < 2 ^ 31 → mid.height < 2 ^ 31 →
      mid.width = ⌈float64 (float64 src.width * fillRatio size src)⌉ →
      mid.height = ⌈float64 (float64 src.height * fillRatio size src)⌉ →
      intermediateSize size src = mid ∧
      0 ≤ (fillRect size mid gravity).x ∧ 0 ≤ (fillRect size mid gravity).y ∧
      (fillRect size mid gravity).x + (fillRect size mid gravity).width ≤ mid.width ∧
      (fillRect size mid gravity).y + (fillRect size mid gravity).height ≤ mid.height) := by
  have hxf : 0 ≤ float64 (float64 size.width / float64 src.width) := by
    rw [float64_intCast (by omega) hW2, float64_intCast (by omega) hsw2]
    exact roundFloat_nonneg (div_nonneg (by exact_mod_cast hW) (by exact_mod_cast le_of_lt hsw))
  have hyf : 0 ≤ float64 (float64 size.height / float64 src.height) := by
    rw [float64_intCast (by omega) hH2, float64_intCast (by omega) hsh2]
    exact roundFloat_nonneg (div_nonneg (by exact_mod_cast hH) (by exact_mod_cast le_of_lt hsh))
  constructor
  · have hr0 : 0 ≤ fitRatio size src := le_min hxf hyf
    have hw : 0 ≤ ⌊float64 (float64 src.width * fitRatio size src)⌋ ∧
        ⌊float64 (float64 src.width * fitRatio size src)⌋ ≤ size.width :=
      floor_scaled_le hsw hsw2 hW hW2 hr0 (min_le_left _ _)
    have hh : 0 ≤ ⌊float64 (float64 src.height * fitRatio size src)⌋ ∧
        ⌊float64 (float64 src.height * fitRatio size src)⌋ ≤ size.height :=
      floor_scaled_le hsh hsh2 hH hH2 hr0 (min_le_right _ _)
    have cw := cIntOfFloat_intCast (z := ⌊float64 (float64 src.width * fitRatio size src)⌋)
      (by omega) (by omega)
    have ch := cIntOfFloat_intCast (z := ⌊float64 (float64 src.height * fitRatio size src)⌋)
      (by omega) (by omega)
    simp only [fitRect, cw, ch]
    exact origin_fits gravity hw.1 hw.2 hW2 hh.1 hh.2 hH2
  · intro mid m1 m2 e1 e2
    have hw : size.width ≤ ⌈float64 (float64 src.width * fillRatio size src)⌉ :=
      le_ceil_scaled hsw hsw2 hW hW2 (le_max_left _ _)
    have hh : size.height ≤ ⌈float64 (float64 src.height * fillRatio size src)⌉ :=
      le_ceil_scaled hsh hsh2 hH hH2 (le_max_right _ _)
    rw [← e1] at hw
    rw [← e2] at hh
    have cw := cIntOfFloat_intCast (z := mid.width) (by omega) m1
    have ch := cIntOfFloat_intCast (z := mid.height) (by omega) m2
    refine ⟨?_, ?_⟩
    · simp only [intermediateSize, ← e1, ← e2, cw, ch]
    · simp only [fillRect]
      exact origin_fits gravity hW hw m1 hH hh m2

theorem placement_contained_witness :
    ((0 : Int) < 200 ∧ (200 : Int) < 2 ^ 31 ∧ (0 : Int) < 100 ∧ (100 : Int) < 2 ^ 31 ∧
      (0 : Int) ≤ 100 ∧ (100 : Int) < 2 ^ 31) ∧
    fitRect ⟨100, 100⟩ ⟨200, 100, 8, 3⟩ CENTER = ⟨0, 25, 100, 50⟩ ∧
    fillRect ⟨100, 100⟩ ⟨200, 100⟩ CENTER = ⟨50, 0, 100, 100⟩ ∧
    ((0 ≤ (fitRect ⟨100, 100⟩ ⟨200, 100, 8, 3⟩ CENTER).x ∧
      0 ≤ (fitRect ⟨100, 100⟩ ⟨200, 100, 8, 3⟩ CENTER).y ∧
      (fitRect ⟨100, 100⟩ ⟨200, 100, 8, 3⟩ CENTER).x
        + (fitRect ⟨100, 100⟩ ⟨200, 100, 8, 3⟩ CENTER).width ≤ 100 ∧
      (fitRect ⟨100, 100⟩ ⟨200, 100, 8, 3⟩ CENTER).y
        + (fitRect ⟨100, 100⟩ ⟨200, 100, 8, 3⟩ CENTER).height ≤ 100) ∧
     (intermediateSize ⟨100, 100⟩ ⟨200, 100, 8, 3⟩ = ⟨200, 100⟩ ∧
      0 ≤ (fillRect ⟨100, 100⟩ ⟨200, 100⟩ CENTER).x ∧
      0 ≤ (fillRect ⟨100, 100⟩ ⟨200, 100⟩ CENTER).y ∧
      (fillRect ⟨100, 100⟩ ⟨200, 100⟩ CENTER).x
          + (fillRect ⟨100, 100⟩ ⟨200, 100⟩ CENTER).width ≤ 200 ∧
      (fillRect ⟨100, 100⟩ ⟨200, 100⟩ CENTER).y
          + (fillRect ⟨100, 100⟩ ⟨200, 100⟩ CENTER).height ≤ 100)) :=
  have h := placement_contained ⟨100, 100⟩ ⟨200, 100, 8, 3⟩ CENTER
    (by decide) (by decide) (by decide) (by decide) (by decide) (by decide) (by decide) (by decide)
  ⟨by decide, by decide!, by decide!, h.1,
    h.2 ⟨200, 100⟩ (by decide) (by decide) (by decide!) (by decide!)⟩

/-- C3, as the spec states it, fails: for WEBP with the caller's Quality 0 the
encoder receives the native quality 85, not 1. -/
theorem resizeParams_webp_zero_counterexample :
    resizeParams opencvKeys { Format := WEBP, Quality := 0 } = [64, 85, 0, 0, 0, 0] ∧
    resizeParams opencvKeys { Format := WEBP, Quality := 0 } ≠ [64, 1, 0, 0, 0, 0] := by
  decide

/-- C3, amended: for WEBP with the caller's Quality 0 the native quality handed
to the encoder is the shared default 85; the zero has been replaced before the
WEBP case tests it. -/
theorem resizeParams_webp_zero (keys : ImwriteKeys) (o : Options)
    (hf : o.Format = WEBP) (hq : o.Quality = 0) :
    resizeParams keys o = [keys.WEBP_QUALITY, 85, 0, 0, 0, 0] := by
  rw [resizeParams_webp keys o hf, hq]
  rfl

theorem resizeParams_webp_zero_witness :
    WEBP = WEBP ∧ (0 : Int) = 0 ∧
      resizeParams opencvKeys { Format := WEBP, Quality := 0 }
        = [opencvKeys.WEBP_QUALITY, 85, 0, 0, 0, 0] :=
  ⟨rfl, rfl, resizeParams_webp_zero opencvKeys { Format := WEBP, Quality := 0 } rfl rfl⟩

/-- C4, as the spec states it, fails: raising the Quality from 0 to 1 raises the
PNG compression level from 1 to 9. -/
theorem png_level_monotone_counterexample :
    (0 : Int) ≤ 1 ∧
    (resizeParams opencvKeys { Format := PNG, Quality := 0 }).getD 1 0 = 1 ∧
    (resizeParams opencvKeys { Format := PNG, Quality := 1 }).getD 1 0 = 9 ∧
    ¬ ((resizeParams opencvKeys { Format := PNG, Quality := 1 }).getD 1 0
        ≤ (resizeParams opencvKeys { Format := PNG, Quality := 0 }).getD 1 0) := by
  decide

/-- C4, amended: for PNG and Quality values `q1 ≤ q2` the level derived for `q2`
is at most the level derived for `q1` exactly when `q1 ≥ 1`, or `q2 ≤ 0`, or
`q2 ≥ 81` (a Quality `≤ 0` counts as 85, level 1); it is higher exactly when
`q1 ≤ 0` and `q2` is in `1..80`. -/
theorem png_level_monotone (keys : ImwriteKeys) (o1 o2 : Options)
    (h1 : o1.Format = PNG) (h2 : o2.Format = PNG) (hle : o1.Quality ≤ o2.Quality) :
    (resizeParams keys o2).getD 1 0 ≤ (resizeParams keys o1).getD 1 0 ↔
      (1 ≤ o1.Quality ∨ o2.Quality ≤ 0 ∨ 81 ≤ o2.Quality) := by
  rw [resizeParams_png keys o1 h1, resizeParams_png keys o2 h2]
  simp only [List.getD_cons_succ, List.getD_cons_zero]
  have r1 := checkQuality_range o1.Quality
  have r2 := checkQuality_range o2.Quality
  constructor
  · intro h
    by_contra hc
    push_neg at hc
    have e1 : checkQuality o1.Quality = 85 := checkQuality_of_nonpos (by omega)
    have e2 : checkQuality o2.Quality = o2.Quality := checkQuality_of_pos (by omega) (by omega)
    rw [e1, e2] at h
    omega
  · intro hq
    have key : checkQuality o1.Quality ≤ checkQuality o2.Quality ∨
        81 ≤ checkQuality o2.Quality ∧ checkQuality o1.Quality = 85 := by
      unfold checkQuality
      dsimp only
      split_ifs <;> omega
    omega

theorem png_level_monotone_witness :
    PNG = PNG ∧ PNG = PNG ∧ (0 : Int) ≤ 81 ∧
    ((1 : Int) ≤ 0 ∨ (81 : Int) ≤ 0 ∨ (81 : Int) ≤ 81) ∧
    (resizeParams opencvKeys { Format := PNG, Quality := 81 }).getD 1 0
      ≤ (resizeParams opencvKeys { Format := PNG, Quality := 0 }).getD 1 0 ∧
    (30 : Int) ≤ 70 ∧
    (resizeParams opencvKeys { Format := PNG, Quality := 70 }).getD 1 0
      ≤ (resizeParams opencvKeys { Format := PNG, Quality := 30 }).getD 1 0 :=
  ⟨rfl, rfl, by decide, by decide,
    (png_level_monotone opencvKeys { Format := PNG, Quality := 0 } { Format := PNG, Quality := 81 }
      rfl rfl (by decide)).mpr (by decide),
    by decide,
    (png_level_monotone opencvKeys { Format := PNG, Quality := 30 } { Format := PNG, Quality := 70 }
      rfl rfl (by decide)).mpr (by decide)⟩

/-- C5: for every format the parameters derived from a Quality above 100 are
those derived from Quality 100; for JPEG and PNG the parameters derived from a
negative Quality are those derived from Quality 0, that is from the default 85. -/
theorem resizeParams_clamp (keys : ImwriteKeys) (o : Options) (q : Int) :
    (100 < q →
      resizeParams keys { o with Quality := q } = resizeParams keys { o with Quality := 100 }) ∧
    (q < 0 → o.Format = JPEG ∨ o.Format = PNG →
      resizeParams keys { o with Quality := q } = resizeParams keys { o with Quality := 0 } ∧
      resizeParams keys { o with Quality := 0 } = encodeParams keys o.Format 85 o.Progressive) := by
  constructor
  · intro h
    simp only [resizeParams]
    rw [checkQuality_of_gt h]
    rfl
  · intro h _
    simp only [resizeParams]
    rw [checkQuality_of_nonpos (le_of_lt h)]
    exact ⟨rfl, rfl⟩

theorem resizeParams_clamp_witness :
    ((100 : Int) < 250 ∧
      resizeParams opencvKeys { Format := WEBP, Quality := 250 }
        = resizeParams opencvKeys { Format := WEBP, Quality := 100 }) ∧
    ((-7 : Int) < 0 ∧ (PNG = JPEG ∨ PNG = PNG) ∧
      resizeParams opencvKeys { Format := PNG, Quality := -7 }
        = resizeParams opencvKeys { Format := PNG, Quality := 0 } ∧
      resizeParams opencvKeys { Format := PNG, Quality := 0 }
        = encodeParams opencvKeys PNG 85 false) :=
  ⟨⟨by decide, (resizeParams_clamp opencvKeys { Format := WEBP } 250).1 (by decide)⟩,
    ⟨by decide, Or.inr rfl,
      (resizeParams_clamp opencvKeys { Format := PNG } (-7)).2 (by decide) (Or.inr rfl)⟩⟩

/-- C6: for PNG the level handed to the encoder is
`clamp(floor((100 - Q) / 10), 0, 9)` with `Q` the clamped and defaulted quality
of the spec; it lies in `0..9`, and the input Quality 0 gives level 1. -/
theorem png_level_formula (keys : ImwriteKeys) (o : Options) (h : o.Format = PNG) :
    resizeParams keys o
        = [keys.PNG_COMPRESSION, specPngLevel (specQuality o.Quality), 0, 0, 0, 0] ∧
    0 ≤ specPngLevel (specQuality o.Quality) ∧ specPngLevel (specQuality o.Quality) ≤ 9 ∧
    (o.Quality = 0 → resizeParams keys o = [keys.PNG_COMPRESSION, 1, 0, 0, 0, 0]) := by
  have hr := checkQuality_range o.Quality
  have hs : specPngLevel (specQuality o.Quality) = (100 - checkQuality o.Quality) / 10 := by
    rw [← checkQuality_eq_specQuality]
    unfold specPngLevel
    omega
  refine ⟨?_, ?_, ?_, ?_⟩
  · rw [hs, resizeParams_png keys o h]
  · rw [hs]
    omega
  · rw [hs]
    omega
  · intro h0
    rw [resizeParams_png keys o h, h0]
    rfl

theorem png_level_formula_witness :
    PNG = PNG ∧
    resizeParams opencvKeys { Format := PNG, Quality := 0 }
        = [opencvKeys.PNG_COMPRESSION, specPngLevel (specQuality 0), 0, 0, 0, 0] ∧
    0 ≤ specPngLevel (specQuality 0) ∧ specPngLevel (specQuality 0) ≤ 9 ∧
    ((0 : Int) = 0 →
      resizeParams opencvKeys { Format := PNG, Quality := 0 }
        = [opencvKeys.PNG_COMPRESSION, 1, 0, 0, 0, 0]) :=
  ⟨rfl, png_level_formula opencvKeys { Format := PNG, Quality := 0 } rfl⟩

/-- C7, evaluated: with `Progressive` set the array is
`[JPEG_QUALITY, 90, 0, JPEG_PROGRESSIVE, 0, 0]`; the flag sits in the value slot
of the second pair, whose key is 0, so the pairs read up to the first zero key
are the quality pair alone, the same as without `Progressive`. -/
theorem jpeg_progressive_pairs :
    resizeParams opencvKeys { Format := JPEG, Quality := 90, Progressive := true }
      = [1, 90, 0, 2, 0, 0] ∧
    readPairs (resizeParams opencvKeys { Format := JPEG, Quality := 90, Progressive := true })
      = [(1, 90)] ∧
    readPairs (resizeParams opencvKeys { Format := JPEG, Quality := 90, Progressive := false })
      = [(1, 90)] := by
  decide

/-- C8, as the spec states it, fails: `MaxSide` 300 on 582x291 gives 299x149,
while the exact `trunc(582 * 300/582)`, `trunc(291 * 300/582)` are 300 and 150. -/
theorem calcNewSize_maxSide_counterexample :
    calcNewSize { Width := 582, Height := 291, MaxSide := 300 } = (299, 149) ∧
    (specScale 582 300 582, specScale 291 300 582) = (300, 150) := by
  decide!

/-- C8, amended: with `MaxSide = m > 0` and non-negative `Width`, `Height`, the
result is unchanged when both are at most `m`; otherwise it is
`(int(float32(Width) * ratio), int(float32(Height) * ratio))` with
`ratio = float32(m) / float32(d)`, `d` being `Width` when `Width ≥ Height` and
`Height` otherwise, each operation rounded to `float32`; for `d < 2^21` each
component is within 1 of the exact `trunc(Width * m/d)`, `trunc(Height * m/d)`. -/
theorem calcNewSize_maxSide (o : Options) (hm : 0 < o.MaxSide)
    (hw : 0 ≤ o.Width) (hh : 0 ≤ o.Height) :
    (o.Width ≤ o.MaxSide ∧ o.Height ≤ o.MaxSide → calcNewSize o = (o.Width, o.Height)) ∧
    (¬ (o.Width ≤ o.MaxSide ∧ o.Height ≤ o.MaxSide) → o.Width ≥ o.Height →
      calcNewSize o = (scale32 o.Width o.MaxSide o.Width, scale32 o.Height o.MaxSide o.Width) ∧
      (o.Width < 2 ^ 21 →
        |(calcNewSize o).1 - specScale o.Width o.MaxSide o.Width| ≤ 1 ∧
        |(calcNewSize o).2 - specScale o.Height o.MaxSide o.Width| ≤ 1)) ∧
    (¬ (o.Width ≤ o.MaxSide ∧ o.Height ≤ o.MaxSide) → o.Width < o.Height →
      calcNewSize o = (scale32 o.Width o.MaxSide o.Height, scale32 o.Height o.MaxSide o.Height) ∧
      (o.Height < 2 ^ 21 →
        |(calcNewSize o).1 - specScale o.Width o.MaxSide o.Height| ≤ 1 ∧
        |(calcNewSize o).2 - specScale o.Height o.MaxSide o.Height| ≤ 1)) := by
  refine ⟨?_, ?_, ?_⟩
  · intro h
    simp [calcNewSize, hm, h]
  · intro h1 h2
    have e : calcNewSize o
        = (scale32 o.Width o.MaxSide o.Width, scale32 o.Height o.MaxSide o.Width) := by
      unfold calcNewSize scale32
      rw [if_pos hm, if_neg h1, if_pos h2]
    refine ⟨e, fun hd => ?_⟩
    have hmd : o.MaxSide < o.Width := by
      by_contra hc
      exact h1 ⟨by omega, by omega⟩
    rw [e]
    exact ⟨scale32_close (by rw [abs_of_nonneg hw]; exact hd) hm hmd hd,
      scale32_close (by rw [abs_of_nonneg hh]; omega) hm hmd hd⟩
  · intro h1 h2
    have e : calcNewSize o
        = (scale32 o.Width o.MaxSide o.Height, scale32 o.Height o.MaxSide o.Height) := by
      unfold calcNewSize scale32
      rw [if_pos hm, if_neg h1, if_neg (by omega)]
    refine ⟨e, fun hd => ?_⟩
    have hmd : o.MaxSide < o.Height := by
      by_contra hc
      exact h1 ⟨by omega, by omega⟩
    rw [e]
    exact ⟨scale32_close (by rw [abs_of_nonneg hw]; omega) hm hmd hd,
      scale32_close (by rw [abs_of_nonneg hh]; exact hd) hm hmd hd⟩

theorem calcNewSize_maxSide_witness :
    ((0 : Int) < 100 ∧ (0 : Int) ≤ 800 ∧ (0 : Int) ≤ 400) ∧
    calcNewSize { Width := 800, Height := 400, MaxSide := 100 } = (100, 50) ∧
    calcNewSize { Width := 800, Height := 400, MaxSide := 100 }
      = (scale32 800 100 800, scale32 400 100 800) ∧
    |(calcNewSize { Width := 800, Height := 400, MaxSide := 100 }).1 - specScale 800 100 800| ≤ 1 ∧
    |(calcNewSize { Width := 800, Height := 400, MaxSide := 100 }).2 - specScale 400 100 800| ≤ 1 :=
  have h := (calcNewSize_maxSide { Width := 800, Height := 400, MaxSide := 100 }
    (by decide) (by decide) (by decide)).2.1 (by decide) (by decide)
  ⟨by decide, by decide!, h.1, h.2 (by decide)⟩

/-- C9, as the spec states it, fails: `MaxHeight` 300 on 291x582 gives 149x299
and `MaxWidth` 300 on 582x291 gives 299x149, while the exact values are
150x300 and 300x150. -/
theorem calcNewSize_single_axis_counterexample :
    calcNewSize { Width := 291, Height := 582, MaxHeight := 300 } = (149, 299) ∧
    (specScale 291 300 582, specScale 582 300 582) = (150, 300) ∧
    calcNewSize { Width := 582, Height := 291, MaxWidth := 300 } = (299, 149) ∧
    (specScale 582 300 582, specScale 291 300 582) = (300, 150) := by
  decide!

/-- C9, amended: with `MaxSide = 0` and `MaxHeight = h > 0` the result is
unchanged when `Height ≤ h` and otherwise
`(int(float32(Width) * ratio), int(float32(Height) * ratio))` with
`ratio = float32(h) / float32(Height)`; with `MaxSide = 0`, `MaxHeight = 0` and
`MaxWidth = w > 0` it is unchanged when `Width ≤ w` and otherwise the same with
`ratio = float32(w) / float32(Width)`; each operation is rounded to `float32`,
and for dimensions below `2^21` in absolute value each component is within 1 of
the exact truncated value. -/
theorem calcNewSize_single_axis (o : Options) (h0 : o.MaxSide = 0) :
    (0 < o.MaxHeight →
      (o.Height ≤ o.MaxHeight → calcNewSize o = (o.Width, o.Height)) ∧
      (o.MaxHeight < o.Height →
        calcNewSize o
          = (scale32 o.Width o.MaxHeight o.Height, scale32 o.Height o.MaxHeight o.Height) ∧
        (|o.Width| < 2 ^ 21 → o.Height < 2 ^ 21 →
          |(calcNewSize o).1 - specScale o.Width o.MaxHeight o.Height| ≤ 1 ∧
          |(calcNewSize o).2 - specScale o.Height o.MaxHeight o.Height| ≤ 1))) ∧
    (o.MaxHeight = 0 → 0 < o.MaxWidth →
      (o.Width ≤ o.MaxWidth → calcNewSize o = (o.Width, o.Height)) ∧
      (o.MaxWidth < o.Width →
        calcNewSize o
          = (scale32 o.Width o.MaxWidth o.Width, scale32 o.Height o.MaxWidth o.Width) ∧
        (o.Width < 2 ^ 21 → |o.Height| < 2 ^ 21 →
          |(calcNewSize o).1 - specScale o.Width o.MaxWidth o.Width| ≤ 1 ∧
          |(calcNewSize o).2 - specScale o.Height o.MaxWidth o.Width| ≤ 1))) := by
  constructor
  · intro hm
    constructor
    · intro h
      simp [calcNewSize, h0, hm, h]
    · intro h
      have e : calcNewSize o
          = (scale32 o.Width o.MaxHeight o.Height, scale32 o.Height o.MaxHeight o.Height) := by
        unfold calcNewSize scale32
        rw [if_neg (by omega), if_pos hm, if_neg (by omega)]
      refine ⟨e, fun hw hh => ?_⟩
      rw [e]
      exact ⟨scale32_close hw hm h hh,
        scale32_close (by rw [abs_of_pos (by omega)]; exact hh) hm h hh⟩
  · intro hz hm
    constructor
    · intro h
      simp [calcNewSize, h0, hz, hm, h]
    · intro h
      have e : calcNewSize o
          = (scale32 o.Width o.MaxWidth o.Width, scale32 o.Height o.MaxWidth o.Width) := by
        unfold calcNewSize scale32
        rw [if_neg (by omega), if_neg (by omega), if_pos hm, if_neg (by omega)]
      refine ⟨e, fun hw hh => ?_⟩
      rw [e]
      exact ⟨scale32_close (by rw [abs_of_pos (by omega)]; exact hw) hm h hw,
        scale32_close hh hm h hw⟩

theorem calcNewSize_single_axis_witness :
    (0 : Int) = 0 ∧
    ((0 : Int) < 240 ∧ (240 : Int) < 480 ∧
      calcNewSize { Width := 640, Height := 480, MaxHeight := 240 } = (320, 240) ∧
      calcNewSize { Width := 640, Height := 480, MaxHeight := 240 }
        = (scale32 640 240 480, scale32 480 240 480) ∧
      |(calcNewSize { Width := 640, Height := 480, MaxHeight := 240 }).1 - specScale 640 240 480| ≤ 1 ∧
      |(calcNewSize { Width := 640, Height := 480, MaxHeight := 240 }).2 - specScale 480 240 480| ≤ 1) ∧
    ((0 : Int) < 320 ∧ (320 : Int) < 640 ∧
      calcNewSize { Width := 640, Height := 480, MaxWidth := 320 } = (320, 240) ∧
      calcNewSize { Width := 640, Height := 480, MaxWidth := 320 }
        = (scale32 640 320 640, scale32 480 320 640)) :=
  have h1 := ((calcNewSize_single_axis { Width := 640, Height := 480, MaxHeight := 240 } rfl).1
    (by decide)).2 (by decide)
  have h2 := ((calcNewSize_single_axis { Width := 640, Height := 480, MaxWidth := 320 } rfl).2
    rfl (by decide)).2 (by decide)
  ⟨rfl, ⟨by decide, by decide, by decide!, h1.1, h1.2 (by decide) (by decide)⟩,
    ⟨by decide, by decide, by decide!, h2.1⟩⟩

/-- C10, as the spec states it, fails: for `Width` 2^32 on an 800x600 source,
with no constraint set, the resolved `Width` is 2^32 but the size handed to the
library, `cvSize(C.int(options.Width), C.int(options.Height))`, is 0x600. -/
theorem resize_passthrough_counterexample :
    (sizedOptions ⟨800, 600, 8, 3⟩ { Width := 2 ^ 32, Height := 0 }).Width = 2 ^ 32 ∧
    (sizedOptions ⟨800, 600, 8, 3⟩ { Width := 2 ^ 32, Height := 0 }).Height = 600 ∧
    resizeSize ⟨800, 600, 8, 3⟩ { Width := 2 ^ 32, Height := 0 } = ⟨0, 600⟩ ∧
    (resizeSize ⟨800, 600, 8, 3⟩ { Width := 2 ^ 32, Height := 0 }).width ≠ 2 ^ 32 := by
  decide!

/-- C10, amended: with no constraint set and a source of non-zero width and
height, the `Width` and `Height` of `ProcessResult` are the requested ones, a
zero replaced by the source's; the size given to the library is that pair
narrowed to C `int`, the pair itself when both values lie in
`-2^31 .. 2^31 - 1`. -/
theorem resize_passthrough (keys : ImwriteKeys)
    (cvEncodeImage : Option String → Dst → List Int → Option (List UInt8))
    (src : IplImage) (o : Options) (hw : src.width ≠ 0) (hh : src.height ≠ 0)
    (h1 : o.MaxSide = 0) (h2 : o.MaxHeight = 0) (h3 : o.MaxWidth = 0) :
    (sizedOptions src o).Width = (if o.Width ≠ 0 then o.Width else src.width) ∧
    (sizedOptions src o).Height = (if o.Height ≠ 0 then o.Height else src.height) ∧
    resizeSize src o = ⟨cInt (if o.Width ≠ 0 then o.Width else src.width),
      cInt (if o.Height ≠ 0 then o.Height else src.height)⟩ ∧
    (-2 ^ 31 ≤ (if o.Width ≠ 0 then o.Width else src.width) →
      (if o.Width ≠ 0 then o.Width else src.width) < 2 ^ 31 →
      -2 ^ 31 ≤ (if o.Height ≠ 0 then o.Height else src.height) →
      (if o.Height ≠ 0 then o.Height else src.height) < 2 ^ 31 →
      resizeSize src o = ⟨if o.Width ≠ 0 then o.Width else src.width,
        if o.Height ≠ 0 then o.Height else src.height⟩) ∧
    ∀ data, cvEncodeImage (encodeExt o.Format) (resizeDst src o) (resizeParams keys o) = some data →
      resize keys cvEncodeImage (some src) o = Except.ok
        { Width := if o.Width ≠ 0 then o.Width else src.width
          Height := if o.Height ≠ 0 then o.Height else src.height
          Data := data } := by
  have hW : (sizedOptions src o).Width = (if o.Width ≠ 0 then o.Width else src.width) := by
    unfold sizedOptions
    by_cases a : o.Width = 0 <;> by_cases b : o.Height = 0 <;>
      simp [calcNewSize, a, b, h1, h2, h3]
  have hH : (sizedOptions src o).Height = (if o.Height ≠ 0 then o.Height else src.height) := by
    unfold sizedOptions
    by_cases a : o.Width = 0 <;> by_cases b : o.Height = 0 <;>
      simp [calcNewSize, a, b, h1, h2, h3]
  refine ⟨hW, hH, ?_, ?_, ?_⟩
  · unfold resizeSize
    rw [hW, hH]
  · intro a1 a2 b1 b2
    unfold resizeSize
    rw [hW, hH, cInt_eq_self a1 a2, cInt_eq_self b1 b2]
  · intro data hd
    unfold resize
    simp only [hw, hh, or_self, if_false, hd, hW, hH]

theorem resize_passthrough_witness :
    (800 : Int) ≠ 0 ∧ (600 : Int) ≠ 0 ∧
    (sizedOptions ⟨800, 600, 8, 3⟩ { Width := 0, Height := 0 }).Width = 800 ∧
    (sizedOptions ⟨800, 600, 8, 3⟩ { Width := 0, Height := 0 }).Height = 600 ∧
    resizeSize ⟨800, 600, 8, 3⟩ { Width := 0, Height := 0 } = ⟨800, 600⟩ ∧
    resize opencvKeys (fun _ _ _ => some []) (some ⟨800, 600, 8, 3⟩) { Width := 0, Height := 0 }
      = Except.ok { Width := 800, Height := 600, Data := [] } :=
  have h := resize_passthrough opencvKeys (fun _ _ _ => some []) ⟨800, 600, 8, 3⟩
    { Width := 0, Height := 0 } (by decide) (by decide) rfl rfl rfl
  ⟨by decide, by decide, h.1, h.2.1,
    h.2.2.2.1 (by decide) (by decide) (by decide) (by decide), h.2.2.2.2 [] rfl⟩

/-- C11, as the spec states it, fails: for an 11x33 source and the output 22x45
the `FIT` rectangle for `CENTER` is 14x45 at (4, 0), while
`floor(11 * min(22/11, 45/33)) = 15` and the table gives the origin (3, 0). -/
theorem fitRect_formula_counterexample :
    fitRect ⟨22, 45⟩ ⟨11, 33, 8, 3⟩ CENTER = ⟨4, 0, 14, 45⟩ ∧
    (specFit 11 11 33 22 45, specFit 33 11 33 22 45) = (15, 45) ∧
    specOrigin CENTER 22 45 15 45 = some (3, 0) := by
  decide!

/-- C11, amended: for a source with `0 < sw, sh`, an output size with
`0 ≤ W, H` (C `int` values) and each of the nine gravities, the `FIT` case takes
`ratio = min(W/sw, H/sh)` with both quotients rounded to `float64`, the
rectangle size `(floor(sw*ratio), floor(sh*ratio))` with both products rounded
to `float64`, each within 1 of the exact `floor(sw*min(W/sw, H/sh))`,
`floor(sh*min(W/sw, H/sh))`, and the origin of the gravity table for the
container `(W, H)`. -/
theorem fitRect_formula (size : CvSize) (src : IplImage) (gravity : Gravity)
    (hsw : 0 < src.width) (hsw2 : src.width < 2 ^ 31)
    (hsh : 0 < src.height) (hsh2 : src.height < 2 ^ 31)
    (hW : 0 ≤ size.width) (hW2 : size.width < 2 ^ 31)
    (hH : 0 ≤ size.height) (hH2 : size.height < 2 ^ 31)
    (hg : 0 ≤ gravity ∧ gravity ≤ 8) :
    fitRatio size src = min (float64 ((size.width : ℚ) / (src.width : ℚ)))
      (float64 ((size.height : ℚ) / (src.height : ℚ))) ∧
    (fitRect size src gravity).width = ⌊float64 ((src.width : ℚ) * fitRatio size src)⌋ ∧
    (fitRect size src gravity).height = ⌊float64 ((src.height : ℚ) * fitRatio size src)⌋ ∧
    |(fitRect size src gravity).width
        - specFit src.width src.width src.height size.width size.height| ≤ 1 ∧
    |(fitRect size src gravity).height
        - specFit src.height src.width src.height size.width size.height| ≤ 1 ∧
    specOrigin gravity size.width size.height (fitRect size src gravity).width
        (fitRect size src gravity).height
      = some ((fitRect size src gravity).x, (fitRect size src gravity).y) := by
  have fw := fit_dim_facts (s := src.width) (Or.inl rfl) hsw hsw2 hsh hsh2 hW hW2 hH hH2
  have fh := fit_dim_facts (s := src.height) (Or.inr rfl) hsw hsw2 hsh hsh2 hW hW2 hH hH2
  have hxf : 0 ≤ float64 (float64 size.width / float64 src.width) := by
    rw [float64_intCast (by omega) hW2, float64_intCast (by omega) hsw2]
    exact roundFloat_nonneg (div_nonneg (by exact_mod_cast hW) (by exact_mod_cast le_of_lt hsw))
  have hyf : 0 ≤ float64 (float64 size.height / float64 src.height) := by
    rw [float64_intCast (by omega) hH2, float64_intCast (by omega) hsh2]
    exact roundFloat_nonneg (div_nonneg (by exact_mod_cast hH) (by exact_mod_cast le_of_lt hsh))
  have hr0 : 0 ≤ fitRatio size src := le_min hxf hyf
  have rw_ : 0 ≤ ⌊float64 (float64 src.width * fitRatio size src)⌋ ∧
      ⌊float64 (float64 src.width * fitRatio size src)⌋ ≤ size.width :=
    floor_scaled_le hsw hsw2 hW hW2 hr0 (min_le_left _ _)
  have rh_ : 0 ≤ ⌊float64 (float64 src.height * fitRatio size src)⌋ ∧
      ⌊float64 (float64 src.height * fitRatio size src)⌋ ≤ size.height :=
    floor_scaled_le hsh hsh2 hH hH2 hr0 (min_le_right _ _)
  rw [float64_intCast (by omega) hsw2] at rw_
  rw [float64_intCast (by omega) hsh2] at rh_
  have ew : (fitRect size src gravity).width
      = ⌊float64 ((src.width : ℚ) * fitRatio size src)⌋ := fw.1
  have eh : (fitRect size src gravity).height
      = ⌊float64 ((src.height : ℚ) * fitRatio size src)⌋ := fh.1
  refine ⟨fitRatio_eq hsw hsw2 hsh hsh2 hW hW2 hH hH2, ew, eh, ?_, ?_, ?_⟩
  · rw [ew]
    exact fw.2.1
  · rw [eh]
    exact fh.2.1
  · have ho : ((fitRect size src gravity).x, (fitRect size src gravity).y)
        = origin gravity size ⟨(fitRect size src gravity).width,
            (fitRect size src gravity).height⟩ := rfl
    rw [ho, ew, eh]
    exact origin_eq_specOrigin hg rw_.1 rw_.2 hW2 rh_.1 rh_.2 hH2

theorem fitRect_formula_witness :
    ((0 : Int) < 200 ∧ (200 : Int) < 2 ^ 31 ∧ (0 : Int) < 100 ∧ (100 : Int) < 2 ^ 31 ∧
      (0 : Int) ≤ 100 ∧ (0 : Int) ≤ CENTER ∧ CENTER ≤ 8) ∧
    fitRect ⟨100, 100⟩ ⟨200, 100, 8, 3⟩ CENTER = ⟨0, 25, 100, 50⟩ ∧
    fitRatio ⟨100, 100⟩ ⟨200, 100, 8, 3⟩ = 1 / 2 ∧
    |(fitRect ⟨100, 100⟩ ⟨200, 100, 8, 3⟩ CENTER).width - specFit 200 200 100 100 100| ≤ 1 ∧
    |(fitRect ⟨100, 100⟩ ⟨200, 100, 8, 3⟩ CENTER).height - specFit 100 200 100 100 100| ≤ 1 ∧
    specOrigin CENTER 100 100 (fitRect ⟨100, 100⟩ ⟨200, 100, 8, 3⟩ CENTER).width
        (fitRect ⟨100, 100⟩ ⟨200, 100, 8, 3⟩ CENTER).height
      = some ((fitRect ⟨100, 100⟩ ⟨200, 100, 8, 3⟩ CENTER).x,
          (fitRect ⟨100, 100⟩ ⟨200, 100, 8, 3⟩ CENTER).y) :=
  have h := fitRect_formula ⟨100, 100⟩ ⟨200, 100, 8, 3⟩ CENTER
    (by decide) (by decide) (by decide) (by decide) (by decide) (by decide) (by decide)
    (by decide) (by decide)
  ⟨by decide, by decide!, by decide!, h.2.2.2.1, h.2.2.2.2.1, h.2.2.2.2.2⟩

/-- C12, as the spec states it, fails: for a 7x35 source and the output 29x29
the intermediate size is 30x145 and the `EAST` crop starts at x = 1, while
`ceil(7 * max(29/7, 29/35)) = 29` and the table gives x = 0; and for a 3x1
source and the output 1 x 2^30 the intermediate width `3 * 2^30` does not fit a
C `int`, the stored value being `-2^31`. -/
theorem fillRect_formula_counterexample :
    intermediateSize ⟨29, 29⟩ ⟨7, 35, 8, 3⟩ = ⟨30, 145⟩ ∧
    (specFill 7 7 35 29 29, specFill 35 7 35 29 29) = (29, 145) ∧
    fillRect ⟨29, 29⟩ (intermediateSize ⟨29, 29⟩ ⟨7, 35, 8, 3⟩) EAST = ⟨1, 58, 29, 29⟩ ∧
    specOrigin EAST 29 145 29 29 = some (0, 58) ∧
    intermediateSize ⟨1, 2 ^ 30⟩ ⟨3, 1, 8, 3⟩ = ⟨-2 ^ 31, 2 ^ 30⟩ ∧
    specFill 3 3 1 1 (2 ^ 30) = 3 * 2 ^ 30 := by
  decide!

/-- C12, amended: for a source with `0 < sw, sh`, an output size with
`0 ≤ W, H` (C `int` values) and each of the nine gravities, provided the two
intermediate dimensions are below `2^31`, the `FILL` case takes
`ratio = max(W/sw, H/sh)` with both quotients rounded to `float64`, the
intermediate size `(ceil(sw*ratio), ceil(sh*ratio))` with both products rounded
to `float64`, each within 1 of the exact `ceil(sw*max(W/sw, H/sh))`,
`ceil(sh*max(W/sw, H/sh))`, a crop rectangle of size exactly `(W, H)`, and the
origin of the gravity table for the intermediate size as container. -/
theorem fillRect_formula (size : CvSize) (src : IplImage) (gravity : Gravity)
    (hsw : 0 < src.width) (hsw2 : src.width < 2 ^ 31)
    (hsh : 0 < src.height) (hsh2 : src.height < 2 ^ 31)
    (hW : 0 ≤ size.width) (hW2 : size.width < 2 ^ 31)
    (hH : 0 ≤ size.height) (hH2 : size.height < 2 ^ 31)
    (hg : 0 ≤ gravity ∧ gravity ≤ 8)
    (mw : ⌈float64 (float64 src.width * fillRatio size src)⌉ < 2 ^ 31)
    (mh : ⌈float64 (float64 src.height * fillRatio size src)⌉ < 2 ^ 31) :
    fillRatio size src = max (float64 ((size.width : ℚ) / (src.width : ℚ)))
      (float64 ((size.height : ℚ) / (src.height : ℚ))) ∧
    intermediateSize size src = ⟨⌈float64 ((src.width : ℚ) * fillRatio size src)⌉,
      ⌈float64 ((src.height : ℚ) * fillRatio size src)⌉⟩ ∧
    |(intermediateSize size src).width
        - specFill src.width src.width src.height size.width size.height| ≤ 1 ∧
    |(intermediateSize size src).height
        - specFill src.height src.width src.height size.width size.height| ≤ 1 ∧
    (fillRect size (intermediateSize size src) gravity).width = size.width ∧
    (fillRect size (intermediateSize size src) gravity).height = size.height ∧
    specOrigin gravity (intermediateSize size src).width (intermediateSize size src).height
        size.width size.height
      = some ((fillRect size (intermediateSize size src) gravity).x,
          (fillRect size (intermediateSize size src) gravity).y) := by
  have fw := fill_dim_facts (s := src.width) (Or.inl rfl) hsw hsw2 hsh hsh2 hW hW2 hH hH2 mw
  have fh := fill_dim_facts (s := src.height) (Or.inr rfl) hsw hsw2 hsh hsh2 hW hW2 hH hH2 mh
  have gw : size.width ≤ ⌈float64 (float64 src.width * fillRatio size src)⌉ :=
    le_ceil_scaled hsw hsw2 hW hW2 (le_max_left _ _)
  have gh : size.height ≤ ⌈float64 (float64 src.height * fillRatio size src)⌉ :=
    le_ceil_scaled hsh hsh2 hH hH2 (le_max_right _ _)
  rw [float64_intCast (by omega) hsw2] at gw mw
  rw [float64_intCast (by omega) hsh2] at gh mh
  have ew : (intermediateSize size src).width
      = ⌈float64 ((src.width : ℚ) * fillRatio size src)⌉ := fw.1
  have eh : (intermediateSize size src).height
      = ⌈float64 ((src.height : ℚ) * fillRatio size src)⌉ := fh.1
  have em : intermediateSize size src = ⟨⌈float64 ((src.width : ℚ) * fillRatio size src)⌉,
      ⌈float64 ((src.height : ℚ) * fillRatio size src)⌉⟩ := by
    rw [← ew, ← eh]
  refine ⟨fillRatio_eq hsw hsw2 hsh hsh2 hW hW2 hH hH2, em, ?_, ?_, rfl, rfl, ?_⟩
  · rw [ew]
    exact fw.2.1
  · rw [eh]
    exact fh.2.1
  · have ho : ((fillRect size (intermediateSize size src) gravity).x,
          (fillRect size (intermediateSize size src) gravity).y)
        = origin gravity (intermediateSize size src) size := rfl
    rw [ho, em]
    exact origin_eq_specOrigin hg hW gw mw hH gh mh

theorem fillRect_formula_witness :
    ((0 : Int) < 200 ∧ (200 : Int) < 2 ^ 31 ∧ (0 : Int) < 100 ∧ (100 : Int) < 2 ^ 31 ∧
      (0 : Int) ≤ 100 ∧ (0 : Int) ≤ NORTH_WEST ∧ NORTH_WEST ≤ 8) ∧
    fillRatio ⟨100, 100⟩ ⟨200, 100, 8, 3⟩ = 1 ∧
    intermediateSize ⟨100, 100⟩ ⟨200, 100, 8, 3⟩ = ⟨200, 100⟩ ∧
    fillRect ⟨100, 100⟩ (intermediateSize ⟨100, 100⟩ ⟨200, 100, 8, 3⟩) NORTH_WEST
      = ⟨0, 0, 100, 100⟩ ∧
    |(intermediateSize ⟨100, 100⟩ ⟨200, 100, 8, 3⟩).width - specFill 200 200 100 100 100| ≤ 1 ∧
    |(intermediateSize ⟨100, 100⟩ ⟨200, 100, 8, 3⟩).height - specFill 100 200 100 100 100| ≤ 1 ∧
    specOrigin NORTH_WEST (intermediateSize ⟨100, 100⟩ ⟨200, 100, 8, 3⟩).width
        (intermediateSize ⟨100, 100⟩ ⟨200, 100, 8, 3⟩).height 100 100
      = some ((fillRect ⟨100, 100⟩ (intermediateSize ⟨100, 100⟩ ⟨200, 100, 8, 3⟩) NORTH_WEST).x,
          (fillRect ⟨100, 100⟩ (intermediateSize ⟨100, 100⟩ ⟨200, 100, 8, 3⟩) NORTH_WEST).y) :=
  have h := fillRect_formula ⟨100, 100⟩ ⟨200, 100, 8, 3⟩ NORTH_WEST
    (by decide) (by decide) (by decide) (by decide) (by decide) (by decide) (by decide)
    (by decide) (by decide) (by decide!) (by decide!)
  ⟨by decide, by decide!, by decide!, by decide!, h.2.2.1, h.2.2.2.1, h.2.2.2.2.2.2⟩

/-- C13, as the spec states it, fails: for a 21x28 source and the output 51x103
the `FIT` rectangle is 50x68, and for a 7x63 source and the output 29x29 the
`FILL` intermediate size is 30x261; `|w*sh - h*sw|` is 28 and 63, equal to
`max(sw, sh)`, not below it.  For a 1171965731x760159696 source and the output
1397019116x2147483647 the `FIT` rectangle gives 1171965732, above `max(sw, sh)`. -/
theorem aspect_counterexample :
    ((fitRect ⟨51, 103⟩ ⟨21, 28, 8, 3⟩ CENTER).width,
      (fitRect ⟨51, 103⟩ ⟨21, 28, 8, 3⟩ CENTER).height) = (50, 68) ∧
    |(50 : Int) * 28 - 68 * 21| = 28 ∧ max (21 : Int) 28 = 28 ∧
    ¬ (|(fitRect ⟨51, 103⟩ ⟨21, 28, 8, 3⟩ CENTER).width * 28
        - (fitRect ⟨51, 103⟩ ⟨21, 28, 8, 3⟩ CENTER).height * 21| < max (21 : Int) 28) ∧
    intermediateSize ⟨29, 29⟩ ⟨7, 63, 8, 3⟩ = ⟨30, 261⟩ ∧
    ¬ (|(intermediateSize ⟨29, 29⟩ ⟨7, 63, 8, 3⟩).width * 63
        - (intermediateSize ⟨29, 29⟩ ⟨7, 63, 8, 3⟩).height * 7| < max (7 : Int) 63) ∧
    ((fitRect ⟨1397019116, 2147483647⟩ ⟨1171965731, 760159696, 8, 3⟩ CENTER).width,
      (fitRect ⟨1397019116, 2147483647⟩ ⟨1171965731, 760159696, 8, 3⟩ CENTER).height)
      = (1397019116, 906133684) ∧
    |(1397019116 : Int) * 760159696 - 906133684 * 1171965731| = 1171965732 := by
  decide!

/-- C13, amended: for a source with `0 < sw, sh` and an output size with
`0 ≤ W, H` (C `int` values), the `FIT` rectangle `(w, h)` and, when its two
dimensions are below `2^31`, the `FILL` intermediate size `(w, h)` come from one
ratio `r` (the `float64` value `fitRatio`, `fillRatio`), with `|w - sw*r| < 1`
and `|h - sh*r| < 1`, hence `|w*sh - h*sw| < sw + sh`; when all the dimensions
involved are below `2^26`, `|w*sh - h*sw| ≤ max(sw, sh)`. -/
theorem aspect_preserved (size : CvSize) (src : IplImage) (gravity : Gravity)
    (hsw : 0 < src.width) (hsw2 : src.width < 2 ^ 31)
    (hsh : 0 < src.height) (hsh2 : src.height < 2 ^ 31)
    (hW : 0 ≤ size.width) (hW2 : size.width < 2 ^ 31)
    (hH : 0 ≤ size.height) (hH2 : size.height < 2 ^ 31) :
    (|((fitRect size src gravity).width : ℚ) - (src.width : ℚ) * fitRatio size src| < 1 ∧
      |((fitRect size src gravity).height : ℚ) - (src.height : ℚ) * fitRatio size src| < 1 ∧
      |(fitRect size src gravity).width * src.height
          - (fitRect size src gravity).height * src.width| < src.width + src.height ∧
      (src.width < 2 ^ 26 → src.height < 2 ^ 26 → size.width < 2 ^ 26 → size.height < 2 ^ 26 →
        |(fitRect size src gravity).width * src.height
          - (fitRect size src gravity).height * src.width| ≤ max src.width src.height)) ∧
    (⌈float64 (float64 src.width * fillRatio size src)⌉ < 2 ^ 31 →
      ⌈float64 (float64 src.height * fillRatio size src)⌉ < 2 ^ 31 →
      |((intermediateSize size src).width : ℚ) - (src.width : ℚ) * fillRatio size src| < 1 ∧
      |((intermediateSize size src).height : ℚ) - (src.height : ℚ) * fillRatio size src| < 1 ∧
      |(intermediateSize size src).width * src.height
          - (intermediateSize size src).height * src.width| < src.width + src.height ∧
      (src.width < 2 ^ 26 → src.height < 2 ^ 26 →
        (intermediateSize size src).width < 2 ^ 26 →
        (intermediateSize size src).height < 2 ^ 26 →
        |(intermediateSize size src).width * src.height
          - (intermediateSize size src).height * src.width| ≤ max src.width src.height)) := by
  have hswq : (0 : ℚ) < (src.width : ℚ) := by exact_mod_cast hsw
  have hshq : (0 : ℚ) < (src.height : ℚ) := by exact_mod_cast hsh
  have hxf : 0 ≤ float64 (float64 size.width / float64 src.width) := by
    rw [float64_intCast (by omega) hW2, float64_intCast (by omega) hsw2]
    exact roundFloat_nonneg (div_nonneg (by exact_mod_cast hW) (le_of_lt hswq))
  have hyf : 0 ≤ float64 (float64 size.height / float64 src.height) := by
    rw [float64_intCast (by omega) hH2, float64_intCast (by omega) hsh2]
    exact roundFloat_nonneg (div_nonneg (by exact_mod_cast hH) (le_of_lt hshq))
  constructor
  · have fw := fit_dim_facts (s := src.width) (Or.inl rfl) hsw hsw2 hsh hsh2 hW hW2 hH hH2
    have fh := fit_dim_facts (s := src.height) (Or.inr rfl) hsw hsw2 hsh hsh2 hW hW2 hH hH2
    have ew : (fitRect size src gravity).width
        = ⌊float64 ((src.width : ℚ) * fitRatio size src)⌋ := fw.1
    have eh : (fitRect size src gravity).height
        = ⌊float64 ((src.height : ℚ) * fitRatio size src)⌋ := fh.1
    have hr0 : 0 ≤ fitRatio size src := le_min hxf hyf
    have rw_ : 0 ≤ ⌊float64 (float64 src.width * fitRatio size src)⌋ ∧
        ⌊float64 (float64 src.width * fitRatio size src)⌋ ≤ size.width :=
      floor_scaled_le hsw hsw2 hW hW2 hr0 (min_le_left _ _)
    have rh_ : 0 ≤ ⌊float64 (float64 src.height * fitRatio size src)⌋ ∧
        ⌊float64 (float64 src.height * fitRatio size src)⌋ ≤ size.height :=
      floor_scaled_le hsh hsh2 hH hH2 hr0 (min_le_right _ _)
    rw [float64_intCast (by omega) hsw2] at rw_
    rw [float64_intCast (by omega) hsh2] at rh_
    rw [ew, eh]
    refine ⟨fw.2.2, fh.2.2, aspect_of_close hsw hsh fw.2.2 fh.2.2, ?_⟩
    intro s1 s2 s3 s4
    have uw := floor_round_upper 53 ((src.width : ℚ) * fitRatio size src)
    have uh := floor_round_upper 53 ((src.height : ℚ) * fitRatio size src)
    have sw_ := small_error_scaled (t := src.height) (by omega) fw.2.2
      (mul_nonneg (le_of_lt hswq) hr0) hsh s2
    have sh_ := small_error_scaled (t := src.width) (by omega) fh.2.2
      (mul_nonneg (le_of_lt hshq) hr0) hsw s1
    refine aspect_tight 1 (Or.inl rfl) hsw hsh fw.2.2 fh.2.2 ?_ ?_
    · rw [one_mul]
      exact lt_of_le_of_lt (mul_le_mul_of_nonneg_right uw (le_of_lt hshq)) sw_
    · rw [one_mul]
      exact lt_of_le_of_lt (mul_le_mul_of_nonneg_right uh (le_of_lt hswq)) sh_
  · intro mw mh
    have fw := fill_dim_facts (s := src.width) (Or.inl rfl) hsw hsw2 hsh hsh2 hW hW2 hH hH2 mw
    have fh := fill_dim_facts (s := src.height) (Or.inr rfl) hsw hsw2 hsh hsh2 hW hW2 hH hH2 mh
    have ew : (intermediateSize size src).width
        = ⌈float64 ((src.width : ℚ) * fillRatio size src)⌉ := fw.1
    have eh : (intermediateSize size src).height
        = ⌈float64 ((src.height : ℚ) * fillRatio size src)⌉ := fh.1
    have hr0 : 0 ≤ fillRatio size src := le_trans hxf (le_max_left _ _)
    rw [ew, eh]
    refine ⟨fw.2.2, fh.2.2, aspect_of_close hsw hsh fw.2.2 fh.2.2, ?_⟩
    intro s1 s2 s3 s4
    have uw : -(|(src.width : ℚ) * fillRatio size src| / 2 ^ 53)
        ≤ ((⌈float64 ((src.width : ℚ) * fillRatio size src)⌉ : Int) : ℚ)
          - (src.width : ℚ) * fillRatio size src :=
      ceil_round_lower 53 ((src.width : ℚ) * fillRatio size src)
    have uh : -(|(src.height : ℚ) * fillRatio size src| / 2 ^ 53)
        ≤ ((⌈float64 ((src.height : ℚ) * fillRatio size src)⌉ : Int) : ℚ)
          - (src.height : ℚ) * fillRatio size src :=
      ceil_round_lower 53 ((src.height : ℚ) * fillRatio size src)
    have sw_ := small_error_scaled (t := src.height) s3 fw.2.2
      (mul_nonneg (le_of_lt hswq) hr0) hsh s2
    have sh_ := small_error_scaled (t := src.width) s4 fh.2.2
      (mul_nonneg (le_of_lt hshq) hr0) hsw s1
    refine aspect_tight (-1) (Or.inr rfl) hsw hsh fw.2.2 fh.2.2 ?_ ?_
    · have : -1 * (((⌈float64 ((src.width : ℚ) * fillRatio size src)⌉ : Int) : ℚ)
          - (src.width : ℚ) * fillRatio size src)
          ≤ |(src.width : ℚ) * fillRatio size src| / 2 ^ 53 := by linarith
      exact lt_of_le_of_lt (mul_le_mul_of_nonneg_right this (le_of_lt hshq)) sw_
    · have : -1 * (((⌈float64 ((src.height : ℚ) * fillRatio size src)⌉ : Int) : ℚ)
          - (src.height : ℚ) * fillRatio size src)
          ≤ |(src.height : ℚ) * fillRatio size src| / 2 ^ 53 := by linarith
      exact lt_of_le_of_lt (mul_le_mul_of_nonneg_right this (le_of_lt hswq)) sh_

theorem aspect_preserved_witness :
    ((0 : Int) < 21 ∧ (21 : Int) < 2 ^ 31 ∧ (0 : Int) < 28 ∧ (28 : Int) < 2 ^ 31 ∧
      (0 : Int) ≤ 51 ∧ (51 : Int) < 2 ^ 31 ∧ (0 : Int) ≤ 103 ∧ (103 : Int) < 2 ^ 31) ∧
    (|((fitRect ⟨51, 103⟩ ⟨21, 28, 8, 3⟩ CENTER).width : ℚ)
        - (21 : Int) * fitRatio ⟨51, 103⟩ ⟨21, 28, 8, 3⟩| < 1 ∧
      |((fitRect ⟨51, 103⟩ ⟨21, 28, 8, 3⟩ CENTER).height : ℚ)
        - (28 : Int) * fitRatio ⟨51, 103⟩ ⟨21, 28, 8, 3⟩| < 1 ∧
      |(fitRect ⟨51, 103⟩ ⟨21, 28, 8, 3⟩ CENTER).width * 28
        - (fitRect ⟨51, 103⟩ ⟨21, 28, 8, 3⟩ CENTER).height * 21| < 21 + 28 ∧
      |(fitRect ⟨51, 103⟩ ⟨21, 28, 8, 3⟩ CENTER).width * 28
        - (fitRect ⟨51, 103⟩ ⟨21, 28, 8, 3⟩ CENTER).height * 21| ≤ max 21 28) ∧
    (|((intermediateSize ⟨51, 103⟩ ⟨21, 28, 8, 3⟩).width : ℚ)
        - (21 : Int) * fillRatio ⟨51, 103⟩ ⟨21, 28, 8, 3⟩| < 1 ∧
      |((intermediateSize ⟨51, 103⟩ ⟨21, 28, 8, 3⟩).height : ℚ)
        - (28 : Int) * fillRatio ⟨51, 103⟩ ⟨21, 28, 8, 3⟩| < 1 ∧
      |(intermediateSize ⟨51, 103⟩ ⟨21, 28, 8, 3⟩).width * 28
        - (intermediateSize ⟨51, 103⟩ ⟨21, 28, 8, 3⟩).height * 21| < 21 + 28 ∧
      |(intermediateSize ⟨51, 103⟩ ⟨21, 28, 8, 3⟩).width * 28
        - (intermediateSize ⟨51, 103⟩ ⟨21, 28, 8, 3⟩).height * 21| ≤ max 21 28) :=
  have h := aspect_preserved ⟨51, 103⟩ ⟨21, 28, 8, 3⟩ CENTER
    (by decide) (by decide) (by decide) (by decide) (by decide) (by decide) (by decide)
    (by decide)
  have hf := h.2 (by decide!) (by decide!)
  ⟨by decide,
    ⟨h.1.1, h.1.2.1, h.1.2.2.1,
      h.1.2.2.2 (by decide) (by decide) (by decide) (by decide)⟩,
    ⟨hf.1, hf.2.1, hf.2.2.1,
      hf.2.2.2 (by decide) (by decide) (by decide!) (by decide!)⟩⟩

/-- C14: for every `Options` value `Resize` on an empty byte sequence returns
no result and `errNoData`, and has made no call: neither the decoder nor any
other library function; on a non-empty input the decoder is called. -/
theorem Resize_empty (keys : ImwriteKeys) (cvDecodeImage : List UInt8 → Option IplImage)
    (cvEncodeImage : Option String → Dst → List Int → Option (List UInt8)) (options : Options) :
    Resize keys cvDecodeImage cvEncodeImage [] options = (Except.error Error.errNoData, []) ∧
    ∀ b data, Call.cvDecodeImage ∈ (Resize keys cvDecodeImage cvEncodeImage (b :: data) options).2 := by
  constructor
  · rfl
  · intro b data
    simp [Resize]

/-- C15: `resize` returns no result and `errInvalidSourceFormat` exactly when the
source is absent or has width 0 or height 0; in those cases it has performed no
division, and every division it performs otherwise has a non-zero divisor. -/
theorem resize_invalid_source (keys : ImwriteKeys)
    (cvEncodeImage : Option String → Dst → List Int → Option (List UInt8))
    (src : Option IplImage) (options : Options) :
    (resize keys cvEncodeImage src options = Except.error Error.errInvalidSourceFormat ↔
      (src = none ∨ ∃ s, src = some s ∧ (s.width = 0 ∨ s.height = 0))) ∧
    ((src = none ∨ ∃ s, src = some s ∧ (s.width = 0 ∨ s.height = 0)) →
      resizeDivisions src options = [] ∧ resizeCalls keys cvEncodeImage src options = []) ∧
    ∀ d ∈ resizeDivisions src options, d.2 ≠ 0 := by
  cases src with
  | none => simp [resize, resizeDivisions, resizeCalls]
  | some s =>
    by_cases hv : s.width = 0 ∨ s.height = 0
    · simp [resize, resizeDivisions, resizeCalls, hv]
    · refine ⟨?_, ?_, ?_⟩
      · simp only [resize, if_neg hv]
        constructor
        · intro h
          cases hc : cvEncodeImage (encodeExt options.Format) (resizeDst s options)
              (resizeParams keys options) <;> rw [hc] at h <;> simp at h
        · rintro (h | ⟨t, ht, h⟩)
          · simp at h
          · simp only [Option.some.injEq] at ht
            subst ht
            exact absurd h hv
      · rintro (h | ⟨t, ht, h⟩)
        · simp at h
        · simp only [Option.some.injEq] at ht
          subst ht
          exact absurd h hv
      · intro d hd
        simp only [resizeDivisions, if_neg hv, List.mem_append, List.mem_cons,
          List.mem_singleton, List.not_mem_nil, or_false] at hd
        push_neg at hv
        rcases hd with hd | hd | hd
        · exact calcNewSizeDivisions_ne_zero _ d hd
        · rw [hd]
          exact (float_intCast_ne_zero hv.1).2
        · rw [hd]
          exact (float_intCast_ne_zero hv.2).2

/-- C16: `Algo.String` gives "fit" for `FIT`, "fill" for `FILL` and "invalid" for
every other integer. -/
theorem Algo_String_values :
    Algo.String FIT = "fit" ∧ Algo.String FILL = "fill" ∧
    ∀ a : Algo, a ≠ FIT → a ≠ FILL → Algo.String a = "invalid" := by
  refine ⟨by decide, by decide, ?_⟩
  intro a h1 h2
  simp [Algo.String, h1, h2]

theorem Algo_String_values_witness :
    (7 : Algo) ≠ FIT ∧ (7 : Algo) ≠ FILL ∧ Algo.String 7 = "invalid" ∧
    Algo.String (-1) = "invalid" :=
  ⟨by decide, by decide, Algo_String_values.2.2 7 (by decide) (by decide),
    Algo_String_values.2.2 (-1) (by decide) (by decide)⟩

/-- C17, as the spec states it, fails: with `MaxSide = 0`, `MaxWidth = 100` and
`MaxHeight = 200` on 800x400 the result is 400x200, the `MaxHeight` constraint;
with `MaxHeight` set to 0 it is 100x50. -/
theorem calcNewSize_order_counterexample :
    calcNewSize { Width := 800, Height := 400, MaxWidth := 100, MaxHeight := 200 } = (400, 200) ∧
    calcNewSize { Width := 800, Height := 400, MaxWidth := 100, MaxHeight := 0 } = (100, 50) ∧
    calcNewSize { Width := 800, Height := 400, MaxWidth := 100, MaxHeight := 200 }
      ≠ calcNewSize { Width := 800, Height := 400, MaxWidth := 100, MaxHeight := 0 } := by
  decide!

/-- C17, amended: the constraint modes are evaluated in the order `MaxSide`,
`MaxHeight`, `MaxWidth`: with `MaxSide = 0`, `MaxWidth > 0` and `MaxHeight > 0`
the result of `calcNewSize` is the result with `MaxWidth` set to 0. -/
theorem calcNewSize_order (o : Options) (h0 : o.MaxSide = 0) (_hw : 0 < o.MaxWidth)
    (hh : 0 < o.MaxHeight) :
    calcNewSize o = calcNewSize { o with MaxWidth := 0 } := by
  simp [calcNewSize, h0, hh]

theorem calcNewSize_order_witness :
    (0 : Int) = 0 ∧ (0 : Int) < 100 ∧ (0 : Int) < 200 ∧
    calcNewSize { Width := 800, Height := 400, MaxWidth := 100, MaxHeight := 200 }
      = calcNewSize { Width := 800, Height := 400, MaxWidth := 0, MaxHeight := 200 } :=
  ⟨rfl, by decide, by decide,
    calcNewSize_order { Width := 800, Height := 400, MaxWidth := 100, MaxHeight := 200 } rfl
      (by decide) (by decide)⟩

/-- C18, evaluated: `MaxSide` 500 on 1920x1080 gives 499x281 and `MaxSide` 1 on
41x41 gives 0x0, so the longer side is not `MaxSide`. -/
theorem calcNewSize_maxSide_not_met :
    calcNewSize { Width := 1920, Height := 1080, MaxSide := 500 } = (499, 281) ∧
    max (calcNewSize { Width := 1920, Height := 1080, MaxSide := 500 }).1
      (calcNewSize { Width := 1920, Height := 1080, MaxSide := 500 }).2 = 499 ∧
    calcNewSize { Width := 41, Height := 41, MaxSide := 1 } = (0, 0) := by
  decide!

/-- C19, evaluated: for a 49x49 source and the output 1x1 the `FIT` rectangle is
empty (0x0), and for an 11x11 source and the output 15x15 it is 14x14: neither
its width nor its height is that of the canvas. -/
theorem fitRect_short_of_canvas :
    fitRect ⟨1, 1⟩ ⟨49, 49, 8, 3⟩ CENTER = ⟨0, 0, 0, 0⟩ ∧
    fitRect ⟨15, 15⟩ ⟨11, 11, 8, 3⟩ CENTER = ⟨0, 0, 14, 14⟩ := by
  decide!

end Trez
